import Mathlib

/-!
A verification development for the keyword-resolution core of `src/keywords.cpp`:
the sorted master keyword catalogue, the per-language filtered catalogue, the
user override registry, the binary-search resolution algorithm
(`find_keyword_type`), the override-file loader (`load_keyword_file`) and the
pattern classifier (`get_token_pattern_class`).

Machine integers are modelled as `Nat` (all flag sets fit well below any
overflow boundary and only bitwise `&`/`|` are used, which cannot overflow).
C strings are modelled as Lean `String`s; byte-wise `strcmp` on UTF-8 data
coincides with code-point-wise lexicographic comparison, which `strcmp` below
implements directly on the character lists.
-/

set_option maxRecDepth 20000
set_option maxHeartbeats 1000000

/-- The token kinds of `E_Token` that occur in `src/keywords.cpp` (the full
enumeration lives in a header outside `src/`; only these constructors are
mentioned by the code under verification). -/
inductive E_Token where
  | CT_ACCESS
  | CT_ALIGN
  | CT_ARITH
  | CT_AS
  | CT_ASM
  | CT_ASSERT
  | CT_ATTRIBUTE
  | CT_AUTORELEASEPOOL
  | CT_BASE
  | CT_BODY
  | CT_BREAK
  | CT_CASE
  | CT_CATCH
  | CT_CHAR
  | CT_CLASS
  | CT_CNG_HASINC
  | CT_CNG_HASINCN
  | CT_COMMENT_EMBED
  | CT_CONSTRUCT
  | CT_CONTINUE
  | CT_DEBUG
  | CT_DEBUGGER
  | CT_DECLSPEC
  | CT_DECLTYPE
  | CT_DEFAULT
  | CT_DEFINED
  | CT_DELEGATE
  | CT_DELETE
  | CT_DI
  | CT_DO
  | CT_D_CAST
  | CT_D_MACRO
  | CT_D_MODULE
  | CT_D_SCOPE
  | CT_D_SCOPE_IF
  | CT_D_VERSION
  | CT_D_VERSION_IF
  | CT_D_WITH
  | CT_ELSE
  | CT_ELSEIF
  | CT_ENUM
  | CT_EXPORT
  | CT_EXTERN
  | CT_FINALLY
  | CT_FIXED
  | CT_FOR
  | CT_FORWARD
  | CT_FRIEND
  | CT_FUNCTION
  | CT_GETSET
  | CT_GOTO
  | CT_HI
  | CT_IF
  | CT_IMPORT
  | CT_IN
  | CT_INVARIANT
  | CT_LAZY
  | CT_LOCK
  | CT_MACRO_CLOSE
  | CT_MACRO_ELSE
  | CT_MACRO_OPEN
  | CT_NAMESPACE
  | CT_NATIVE
  | CT_NEW
  | CT_NOEXCEPT
  | CT_NONE
  | CT_NOTHROW
  | CT_OC_AVAILABLE
  | CT_OC_DYNAMIC
  | CT_OC_END
  | CT_OC_IMPL
  | CT_OC_INTF
  | CT_OC_PROPERTY
  | CT_OC_PROPERTY_ATTR
  | CT_OC_PROTOCOL
  | CT_OC_SEL
  | CT_OPERATOR
  | CT_PACKAGE
  | CT_PP_ASM
  | CT_PP_ASSERT
  | CT_PP_DEFINE
  | CT_PP_DEFINED
  | CT_PP_ELSE
  | CT_PP_EMIT
  | CT_PP_ENDIF
  | CT_PP_ENDINPUT
  | CT_PP_ENDREGION
  | CT_PP_ERROR
  | CT_PP_FILE
  | CT_PP_IF
  | CT_PP_INCLUDE
  | CT_PP_LINE
  | CT_PP_PRAGMA
  | CT_PP_PROPERTY
  | CT_PP_REGION
  | CT_PP_SECTION
  | CT_PP_UNDEF
  | CT_PREPROC
  | CT_QI
  | CT_QUALIFIER
  | CT_Q_EMIT
  | CT_Q_FOREVER
  | CT_Q_GADGET
  | CT_RETURN
  | CT_SARITH
  | CT_SASSIGN
  | CT_SBOOL
  | CT_SCOMPARE
  | CT_SI
  | CT_SIZEOF
  | CT_STATE
  | CT_STOCK
  | CT_STRUCT
  | CT_SUPER
  | CT_SWITCH
  | CT_SYNCHRONIZED
  | CT_TAGOF
  | CT_TEMPLATE
  | CT_THIS
  | CT_THROW
  | CT_TRY
  | CT_TYPE
  | CT_TYPEDEF
  | CT_TYPENAME
  | CT_TYPE_CAST
  | CT_UNION
  | CT_UNITTEST
  | CT_UNSAFE
  | CT_USING
  | CT_USING_STMT
  | CT_VOLATILE
  | CT_WHEN
  | CT_WHERE
  | CT_WHILE
  | CT_WHILE_OF_DO
  | CT_WORD
  | CT_WORD_
deriving DecidableEq, Repr

instance : Inhabited E_Token := ⟨E_Token.CT_NONE⟩

open E_Token

/-- The pattern classes of `pattern_class_e` (declared in a header outside
`src/`; the constructor names follow the source). -/
inductive pattern_class_e where
  | NONE
  | BRACED
  | PBRACED
  | OPBRACED
  | VBRACED
  | PAREN
  | OPPAREN
  | ELSE
deriving DecidableEq, Repr

/-- Modelled from the spec: the language flag set is "a bit-set over a closed
set of language tags plus one orthogonal marker flag", with aggregate tags
("all languages", "all curly-brace languages") stored as the pre-computed
union of their members (the numeric values live in a header outside `src/`). -/
def LANG_C : Nat := 0x0001

def LANG_CPP : Nat := 0x0002

def LANG_D : Nat := 0x0004

def LANG_CS : Nat := 0x0008

def LANG_JAVA : Nat := 0x0010

def LANG_OC : Nat := 0x0020

def LANG_VALA : Nat := 0x0040

def LANG_PAWN : Nat := 0x0080

def LANG_ECMA : Nat := 0x0100

/-- Aggregate tag: all languages except PAWN ("all curly-brace languages"). -/
def LANG_ALLC : Nat :=
  LANG_C ||| LANG_CPP ||| LANG_D ||| LANG_CS ||| LANG_JAVA ||| LANG_OC ||| LANG_VALA ||| LANG_ECMA

/-- Aggregate tag: all languages. -/
def LANG_ALL : Nat := LANG_ALLC ||| LANG_PAWN

/-- The orthogonal "preprocessor-only" marker flag. -/
def FLAG_PP : Nat := 0x8000

/-- Entry type `chunk_tag_t`: a catalogue entry `{ tag, type, lang_flags }`. -/
structure chunk_tag_t where
  tag : String
  type : E_Token
  lang_flags : Nat
deriving DecidableEq, Repr

instance : Inhabited chunk_tag_t := ⟨⟨"", CT_NONE, 0⟩⟩

/-- Three-way comparison of character lists; mirrors byte-wise `strcmp` on the
UTF-8 encodings (UTF-8 byte order agrees with code-point order). -/
def charListCmp : List Char → List Char → Ordering
  | [], [] => Ordering.eq
  | [], _ :: _ => Ordering.lt
  | _ :: _, [] => Ordering.gt
  | a :: as, b :: bs =>
    if a = b then charListCmp as bs
    else if a.toNat < b.toNat then Ordering.lt
    else Ordering.gt

/-- Byte-wise `strcmp` on the two strings, as used by `kw_compare`. -/
def strcmp (a b : String) : Ordering := charListCmp a.data b.data

/-- Relation: `a` compares at-or-below `b` under `strcmp` ("spelling(i) ≤ spelling(i+1)
under byte-wise string comparison"). -/
def strLe (a b : String) : Prop := strcmp a b ≠ Ordering.gt

instance (a b : String) : Decidable (strLe a b) :=
  inferInstanceAs (Decidable (strcmp a b ≠ Ordering.gt))

/-- Table `keywords`: the master catalogue table, transcribed entry for entry from
`src/keywords.cpp` (the entry for "null" is commented out there and is
therefore absent here as well). -/
def keywords : List chunk_tag_t := [
  chunk_tag_t.mk "@autoreleasepool" CT_AUTORELEASEPOOL (LANG_OC),
  chunk_tag_t.mk "@available" CT_OC_AVAILABLE (LANG_OC),
  chunk_tag_t.mk "@catch" CT_CATCH (LANG_OC),
  chunk_tag_t.mk "@dynamic" CT_OC_DYNAMIC (LANG_OC),
  chunk_tag_t.mk "@end" CT_OC_END (LANG_OC),
  chunk_tag_t.mk "@finally" CT_FINALLY (LANG_OC),
  chunk_tag_t.mk "@implementation" CT_OC_IMPL (LANG_OC),
  chunk_tag_t.mk "@interface" CT_OC_INTF (LANG_OC),
  chunk_tag_t.mk "@interface" CT_CLASS (LANG_JAVA),
  chunk_tag_t.mk "@private" CT_ACCESS (LANG_OC),
  chunk_tag_t.mk "@property" CT_OC_PROPERTY (LANG_OC),
  chunk_tag_t.mk "@protected" CT_ACCESS (LANG_OC),
  chunk_tag_t.mk "@protocol" CT_OC_PROTOCOL (LANG_OC),
  chunk_tag_t.mk "@public" CT_ACCESS (LANG_OC),
  chunk_tag_t.mk "@selector" CT_OC_SEL (LANG_OC),
  chunk_tag_t.mk "@synchronized" CT_SYNCHRONIZED (LANG_OC),
  chunk_tag_t.mk "@synthesize" CT_OC_DYNAMIC (LANG_OC),
  chunk_tag_t.mk "@throw" CT_THROW (LANG_OC),
  chunk_tag_t.mk "@try" CT_TRY (LANG_OC),
  chunk_tag_t.mk "API_AVAILABLE" CT_ATTRIBUTE (LANG_OC),
  chunk_tag_t.mk "API_DEPRECATED" CT_ATTRIBUTE (LANG_OC),
  chunk_tag_t.mk "API_DEPRECATED_WITH_REPLACEMENT" CT_ATTRIBUTE (LANG_OC),
  chunk_tag_t.mk "API_UNAVAILABLE" CT_ATTRIBUTE (LANG_OC),
  chunk_tag_t.mk "BOOL" CT_TYPE (LANG_OC),
  chunk_tag_t.mk "INT16_C" CT_TYPE (LANG_CPP),
  chunk_tag_t.mk "INT32_C" CT_TYPE (LANG_CPP),
  chunk_tag_t.mk "INT64_C" CT_TYPE (LANG_CPP),
  chunk_tag_t.mk "INT8_C" CT_TYPE (LANG_CPP),
  chunk_tag_t.mk "INTMAX_C" CT_TYPE (LANG_CPP),
  chunk_tag_t.mk "NS_ENUM" CT_ENUM (LANG_OC),
  chunk_tag_t.mk "NS_OPTIONS" CT_ENUM (LANG_OC),
  chunk_tag_t.mk "Q_EMIT" CT_Q_EMIT (LANG_CPP),
  chunk_tag_t.mk "Q_FOREACH" CT_FOR (LANG_CPP),
  chunk_tag_t.mk "Q_FOREVER" CT_Q_FOREVER (LANG_CPP),
  chunk_tag_t.mk "Q_GADGET" CT_Q_GADGET (LANG_CPP),
  chunk_tag_t.mk "Q_OBJECT" CT_COMMENT_EMBED (LANG_CPP),
  chunk_tag_t.mk "Q_SIGNALS" CT_ACCESS (LANG_CPP),
  chunk_tag_t.mk "UINT16_C" CT_TYPE (LANG_CPP),
  chunk_tag_t.mk "UINT32_C" CT_TYPE (LANG_CPP),
  chunk_tag_t.mk "UINT64_C" CT_TYPE (LANG_CPP),
  chunk_tag_t.mk "UINT8_C" CT_TYPE (LANG_CPP),
  chunk_tag_t.mk "UINTMAX_C" CT_TYPE (LANG_CPP),
  chunk_tag_t.mk "_Bool" CT_TYPE (LANG_C ||| LANG_CPP),
  chunk_tag_t.mk "_Complex" CT_TYPE (LANG_C ||| LANG_CPP),
  chunk_tag_t.mk "_Imaginary" CT_TYPE (LANG_C ||| LANG_CPP),
  chunk_tag_t.mk "_Nonnull" CT_QUALIFIER (LANG_OC),
  chunk_tag_t.mk "_Null_unspecified" CT_QUALIFIER (LANG_OC),
  chunk_tag_t.mk "_Nullable" CT_QUALIFIER (LANG_OC),
  chunk_tag_t.mk "_Pragma" CT_PP_PRAGMA (LANG_ALL ||| FLAG_PP),
  chunk_tag_t.mk "__DI__" CT_DI (LANG_C ||| LANG_CPP),
  chunk_tag_t.mk "__HI__" CT_HI (LANG_C ||| LANG_CPP),
  chunk_tag_t.mk "__QI__" CT_QI (LANG_C ||| LANG_CPP),
  chunk_tag_t.mk "__SI__" CT_SI (LANG_C ||| LANG_CPP),
  chunk_tag_t.mk "__asm__" CT_ASM (LANG_C ||| LANG_CPP),
  chunk_tag_t.mk "__attribute__" CT_ATTRIBUTE (LANG_C ||| LANG_CPP ||| LANG_OC),
  chunk_tag_t.mk "__autoreleasing" CT_QUALIFIER (LANG_C ||| LANG_CPP),
  chunk_tag_t.mk "__block" CT_QUALIFIER (LANG_C ||| LANG_CPP ||| LANG_OC),
  chunk_tag_t.mk "__bridge" CT_QUALIFIER (LANG_C ||| LANG_CPP),
  chunk_tag_t.mk "__bridge_retained" CT_QUALIFIER (LANG_C ||| LANG_CPP),
  chunk_tag_t.mk "__bridge_transfer" CT_QUALIFIER (LANG_C ||| LANG_CPP),
  chunk_tag_t.mk "__const__" CT_QUALIFIER (LANG_C ||| LANG_CPP),
  chunk_tag_t.mk "__declspec" CT_DECLSPEC (LANG_C ||| LANG_CPP),
  chunk_tag_t.mk "__except" CT_CATCH (LANG_C ||| LANG_CPP),
  chunk_tag_t.mk "__finally" CT_FINALLY (LANG_C ||| LANG_CPP),
  chunk_tag_t.mk "__has_include" CT_CNG_HASINC (LANG_C ||| LANG_CPP ||| LANG_OC ||| FLAG_PP),
  chunk_tag_t.mk "__has_include_next" CT_CNG_HASINCN (LANG_C ||| LANG_CPP ||| FLAG_PP),
  chunk_tag_t.mk "__inline__" CT_QUALIFIER (LANG_C ||| LANG_CPP),
  chunk_tag_t.mk "__nonnull" CT_QUALIFIER (LANG_OC),
  chunk_tag_t.mk "__nothrow__" CT_NOTHROW (LANG_C ||| LANG_CPP),
  chunk_tag_t.mk "__null_unspecified" CT_QUALIFIER (LANG_OC),
  chunk_tag_t.mk "__nullable" CT_QUALIFIER (LANG_OC),
  chunk_tag_t.mk "__pragma" CT_PP_PRAGMA (LANG_ALL ||| FLAG_PP),
  chunk_tag_t.mk "__restrict" CT_QUALIFIER (LANG_C ||| LANG_CPP),
  chunk_tag_t.mk "__signed__" CT_TYPE (LANG_C ||| LANG_CPP),
  chunk_tag_t.mk "__strong" CT_QUALIFIER (LANG_C ||| LANG_CPP),
  chunk_tag_t.mk "__thread" CT_QUALIFIER (LANG_C ||| LANG_CPP),
  chunk_tag_t.mk "__traits" CT_QUALIFIER (LANG_D),
  chunk_tag_t.mk "__try" CT_TRY (LANG_C ||| LANG_CPP),
  chunk_tag_t.mk "__typeof" CT_DECLTYPE (LANG_C ||| LANG_CPP ||| LANG_OC),
  chunk_tag_t.mk "__typeof__" CT_DECLTYPE (LANG_C ||| LANG_CPP),
  chunk_tag_t.mk "__unsafe_unretained" CT_QUALIFIER (LANG_OC),
  chunk_tag_t.mk "__unused" CT_ATTRIBUTE (LANG_C ||| LANG_CPP),
  chunk_tag_t.mk "__volatile__" CT_QUALIFIER (LANG_C ||| LANG_CPP),
  chunk_tag_t.mk "__weak" CT_QUALIFIER (LANG_C ||| LANG_CPP),
  chunk_tag_t.mk "__word__" CT_WORD_ (LANG_C ||| LANG_CPP),
  chunk_tag_t.mk "abstract" CT_QUALIFIER (LANG_CS ||| LANG_D ||| LANG_JAVA ||| LANG_VALA ||| LANG_ECMA),
  chunk_tag_t.mk "add" CT_GETSET (LANG_CS),
  chunk_tag_t.mk "alias" CT_USING (LANG_D),
  chunk_tag_t.mk "align" CT_ALIGN (LANG_D),
  chunk_tag_t.mk "alignof" CT_SIZEOF (LANG_CPP),
  chunk_tag_t.mk "and" CT_SBOOL (LANG_CPP),
  chunk_tag_t.mk "and_eq" CT_SASSIGN (LANG_CPP),
  chunk_tag_t.mk "as" CT_AS (LANG_CS ||| LANG_VALA),
  chunk_tag_t.mk "asm" CT_ASM (LANG_C ||| LANG_CPP ||| LANG_D),
  chunk_tag_t.mk "asm" CT_PP_ASM (LANG_ALL ||| FLAG_PP),
  chunk_tag_t.mk "assert" CT_ASSERT (LANG_JAVA),
  chunk_tag_t.mk "assert" CT_FUNCTION (LANG_D ||| LANG_PAWN),
  chunk_tag_t.mk "assert" CT_PP_ASSERT (LANG_PAWN ||| FLAG_PP),
  chunk_tag_t.mk "auto" CT_TYPE (LANG_C ||| LANG_CPP ||| LANG_D),
  chunk_tag_t.mk "base" CT_BASE (LANG_CS ||| LANG_VALA),
  chunk_tag_t.mk "bit" CT_TYPE (LANG_D),
  chunk_tag_t.mk "bitand" CT_ARITH (LANG_C ||| LANG_CPP),
  chunk_tag_t.mk "bitor" CT_ARITH (LANG_C ||| LANG_CPP),
  chunk_tag_t.mk "body" CT_BODY (LANG_D),
  chunk_tag_t.mk "bool" CT_TYPE (LANG_C ||| LANG_CPP ||| LANG_CS ||| LANG_VALA),
  chunk_tag_t.mk "boolean" CT_TYPE (LANG_JAVA ||| LANG_ECMA),
  chunk_tag_t.mk "break" CT_BREAK (LANG_ALL),
  chunk_tag_t.mk "byte" CT_TYPE (LANG_CS ||| LANG_D ||| LANG_JAVA ||| LANG_ECMA),
  chunk_tag_t.mk "callback" CT_QUALIFIER (LANG_VALA),
  chunk_tag_t.mk "case" CT_CASE (LANG_ALL),
  chunk_tag_t.mk "cast" CT_D_CAST (LANG_D),
  chunk_tag_t.mk "catch" CT_CATCH (LANG_CPP ||| LANG_CS ||| LANG_VALA ||| LANG_D ||| LANG_JAVA ||| LANG_ECMA),
  chunk_tag_t.mk "cdouble" CT_TYPE (LANG_D),
  chunk_tag_t.mk "cent" CT_TYPE (LANG_D),
  chunk_tag_t.mk "cfloat" CT_TYPE (LANG_D),
  chunk_tag_t.mk "char" CT_CHAR (LANG_PAWN),
  chunk_tag_t.mk "char" CT_TYPE (LANG_ALLC),
  chunk_tag_t.mk "checked" CT_QUALIFIER (LANG_CS),
  chunk_tag_t.mk "class" CT_CLASS (LANG_CPP ||| LANG_CS ||| LANG_D ||| LANG_JAVA ||| LANG_VALA ||| LANG_ECMA),
  chunk_tag_t.mk "compl" CT_ARITH (LANG_CPP),
  chunk_tag_t.mk "const" CT_QUALIFIER (LANG_ALL),
  chunk_tag_t.mk "const_cast" CT_TYPE_CAST (LANG_CPP),
  chunk_tag_t.mk "constexpr" CT_QUALIFIER (LANG_CPP),
  chunk_tag_t.mk "construct" CT_CONSTRUCT (LANG_VALA),
  chunk_tag_t.mk "continue" CT_CONTINUE (LANG_ALL),
  chunk_tag_t.mk "creal" CT_TYPE (LANG_D),
  chunk_tag_t.mk "dchar" CT_TYPE (LANG_D),
  chunk_tag_t.mk "debug" CT_DEBUG (LANG_D),
  chunk_tag_t.mk "debugger" CT_DEBUGGER (LANG_ECMA),
  chunk_tag_t.mk "decltype" CT_DECLTYPE (LANG_CPP),
  chunk_tag_t.mk "default" CT_DEFAULT (LANG_ALL),
  chunk_tag_t.mk "define" CT_PP_DEFINE (LANG_ALL ||| FLAG_PP),
  chunk_tag_t.mk "defined" CT_DEFINED (LANG_PAWN),
  chunk_tag_t.mk "defined" CT_PP_DEFINED (LANG_ALLC ||| FLAG_PP),
  chunk_tag_t.mk "delegate" CT_DELEGATE (LANG_CS ||| LANG_VALA ||| LANG_D),
  chunk_tag_t.mk "delete" CT_DELETE (LANG_CPP ||| LANG_D ||| LANG_ECMA ||| LANG_VALA),
  chunk_tag_t.mk "deprecated" CT_QUALIFIER (LANG_D),
  chunk_tag_t.mk "do" CT_DO (LANG_ALL),
  chunk_tag_t.mk "double" CT_TYPE (LANG_ALLC),
  chunk_tag_t.mk "dynamic_cast" CT_TYPE_CAST (LANG_CPP),
  chunk_tag_t.mk "elif" CT_PP_ELSE (LANG_ALLC ||| FLAG_PP),
  chunk_tag_t.mk "else" CT_ELSE (LANG_ALL),
  chunk_tag_t.mk "else" CT_PP_ELSE (LANG_ALL ||| FLAG_PP),
  chunk_tag_t.mk "elseif" CT_PP_ELSE (LANG_PAWN ||| FLAG_PP),
  chunk_tag_t.mk "emit" CT_PP_EMIT (LANG_PAWN ||| FLAG_PP),
  chunk_tag_t.mk "endif" CT_PP_ENDIF (LANG_ALL ||| FLAG_PP),
  chunk_tag_t.mk "endinput" CT_PP_ENDINPUT (LANG_PAWN ||| FLAG_PP),
  chunk_tag_t.mk "endregion" CT_PP_ENDREGION (LANG_ALL ||| FLAG_PP),
  chunk_tag_t.mk "endscript" CT_PP_ENDINPUT (LANG_PAWN ||| FLAG_PP),
  chunk_tag_t.mk "enum" CT_ENUM (LANG_ALL),
  chunk_tag_t.mk "error" CT_PP_ERROR (LANG_PAWN ||| FLAG_PP),
  chunk_tag_t.mk "errordomain" CT_ENUM (LANG_VALA),
  chunk_tag_t.mk "event" CT_TYPE (LANG_CS),
  chunk_tag_t.mk "exit" CT_FUNCTION (LANG_PAWN),
  chunk_tag_t.mk "explicit" CT_QUALIFIER (LANG_CPP ||| LANG_CS),
  chunk_tag_t.mk "export" CT_EXPORT (LANG_CPP ||| LANG_D ||| LANG_ECMA),
  chunk_tag_t.mk "extends" CT_QUALIFIER (LANG_JAVA ||| LANG_ECMA),
  chunk_tag_t.mk "extern" CT_EXTERN (LANG_C ||| LANG_CPP ||| LANG_OC ||| LANG_CS ||| LANG_D ||| LANG_VALA),
  chunk_tag_t.mk "false" CT_WORD (LANG_ALL),
  chunk_tag_t.mk "file" CT_PP_FILE (LANG_PAWN ||| FLAG_PP),
  chunk_tag_t.mk "final" CT_QUALIFIER (LANG_CPP ||| LANG_D ||| LANG_ECMA),
  chunk_tag_t.mk "finally" CT_FINALLY (LANG_D ||| LANG_CS ||| LANG_VALA ||| LANG_ECMA ||| LANG_JAVA),
  chunk_tag_t.mk "fixed" CT_FIXED (LANG_CS),
  chunk_tag_t.mk "flags" CT_TYPE (LANG_VALA),
  chunk_tag_t.mk "float" CT_TYPE (LANG_ALLC),
  chunk_tag_t.mk "for" CT_FOR (LANG_ALL),
  chunk_tag_t.mk "foreach" CT_FOR (LANG_CS ||| LANG_D ||| LANG_VALA),
  chunk_tag_t.mk "foreach_reverse" CT_FOR (LANG_D),
  chunk_tag_t.mk "forward" CT_FORWARD (LANG_PAWN),
  chunk_tag_t.mk "friend" CT_FRIEND (LANG_CPP),
  chunk_tag_t.mk "function" CT_FUNCTION (LANG_D ||| LANG_ECMA),
  chunk_tag_t.mk "get" CT_GETSET (LANG_CS ||| LANG_VALA),
  chunk_tag_t.mk "goto" CT_GOTO (LANG_ALL),
  chunk_tag_t.mk "idouble" CT_TYPE (LANG_D),
  chunk_tag_t.mk "if" CT_IF (LANG_ALL),
  chunk_tag_t.mk "if" CT_PP_IF (LANG_ALL ||| FLAG_PP),
  chunk_tag_t.mk "ifdef" CT_PP_IF (LANG_ALLC ||| FLAG_PP),
  chunk_tag_t.mk "ifloat" CT_TYPE (LANG_D),
  chunk_tag_t.mk "ifndef" CT_PP_IF (LANG_ALLC ||| FLAG_PP),
  chunk_tag_t.mk "implements" CT_QUALIFIER (LANG_JAVA ||| LANG_ECMA),
  chunk_tag_t.mk "implicit" CT_QUALIFIER (LANG_CS),
  chunk_tag_t.mk "import" CT_IMPORT (LANG_D ||| LANG_JAVA ||| LANG_ECMA),
  chunk_tag_t.mk "import" CT_PP_INCLUDE (LANG_OC ||| FLAG_PP),
  chunk_tag_t.mk "in" CT_IN (LANG_D ||| LANG_CS ||| LANG_VALA ||| LANG_ECMA ||| LANG_OC),
  chunk_tag_t.mk "include" CT_PP_INCLUDE (LANG_C ||| LANG_CPP ||| LANG_OC ||| LANG_PAWN ||| FLAG_PP),
  chunk_tag_t.mk "inline" CT_QUALIFIER (LANG_C ||| LANG_CPP),
  chunk_tag_t.mk "inout" CT_QUALIFIER (LANG_D),
  chunk_tag_t.mk "instanceof" CT_SIZEOF (LANG_JAVA ||| LANG_ECMA),
  chunk_tag_t.mk "int" CT_TYPE (LANG_ALLC),
  chunk_tag_t.mk "interface" CT_CLASS (LANG_CPP ||| LANG_CS ||| LANG_D ||| LANG_JAVA ||| LANG_VALA ||| LANG_ECMA),
  chunk_tag_t.mk "internal" CT_QUALIFIER (LANG_CS ||| LANG_VALA),
  chunk_tag_t.mk "invariant" CT_INVARIANT (LANG_D),
  chunk_tag_t.mk "ireal" CT_TYPE (LANG_D),
  chunk_tag_t.mk "is" CT_SCOMPARE (LANG_D ||| LANG_CS ||| LANG_VALA),
  chunk_tag_t.mk "lazy" CT_LAZY (LANG_D),
  chunk_tag_t.mk "line" CT_PP_LINE (LANG_PAWN ||| FLAG_PP),
  chunk_tag_t.mk "lock" CT_LOCK (LANG_CS ||| LANG_VALA),
  chunk_tag_t.mk "long" CT_TYPE (LANG_ALLC),
  chunk_tag_t.mk "macro" CT_D_MACRO (LANG_D),
  chunk_tag_t.mk "mixin" CT_CLASS (LANG_D),
  chunk_tag_t.mk "module" CT_D_MODULE (LANG_D),
  chunk_tag_t.mk "mutable" CT_QUALIFIER (LANG_CPP),
  chunk_tag_t.mk "namespace" CT_NAMESPACE (LANG_CPP ||| LANG_CS ||| LANG_VALA),
  chunk_tag_t.mk "native" CT_NATIVE (LANG_PAWN),
  chunk_tag_t.mk "native" CT_QUALIFIER (LANG_JAVA ||| LANG_ECMA),
  chunk_tag_t.mk "new" CT_NEW (LANG_CPP ||| LANG_CS ||| LANG_D ||| LANG_JAVA ||| LANG_PAWN ||| LANG_VALA ||| LANG_ECMA),
  chunk_tag_t.mk "noexcept" CT_NOEXCEPT (LANG_CPP),
  chunk_tag_t.mk "nonnull" CT_TYPE (LANG_OC),
  chunk_tag_t.mk "not" CT_SARITH (LANG_CPP),
  chunk_tag_t.mk "not_eq" CT_SCOMPARE (LANG_CPP),
  chunk_tag_t.mk "null_resettable" CT_OC_PROPERTY_ATTR (LANG_OC),
  chunk_tag_t.mk "null_unspecified" CT_TYPE (LANG_OC),
  chunk_tag_t.mk "nullable" CT_TYPE (LANG_OC),
  chunk_tag_t.mk "object" CT_TYPE (LANG_CS),
  chunk_tag_t.mk "operator" CT_OPERATOR (LANG_CPP ||| LANG_CS ||| LANG_PAWN),
  chunk_tag_t.mk "or" CT_SBOOL (LANG_CPP),
  chunk_tag_t.mk "or_eq" CT_SASSIGN (LANG_CPP),
  chunk_tag_t.mk "out" CT_QUALIFIER (LANG_CS ||| LANG_D ||| LANG_VALA),
  chunk_tag_t.mk "override" CT_QUALIFIER (LANG_CPP ||| LANG_CS ||| LANG_D ||| LANG_VALA),
  chunk_tag_t.mk "package" CT_ACCESS (LANG_D),
  chunk_tag_t.mk "package" CT_PACKAGE (LANG_ECMA ||| LANG_JAVA),
  chunk_tag_t.mk "params" CT_TYPE (LANG_CS ||| LANG_VALA),
  chunk_tag_t.mk "pragma" CT_PP_PRAGMA (LANG_ALL ||| FLAG_PP),
  chunk_tag_t.mk "private" CT_ACCESS (LANG_ALLC),
  chunk_tag_t.mk "property" CT_PP_PROPERTY (LANG_CS ||| FLAG_PP),
  chunk_tag_t.mk "protected" CT_ACCESS (LANG_ALLC),
  chunk_tag_t.mk "public" CT_ACCESS (LANG_ALL),
  chunk_tag_t.mk "readonly" CT_QUALIFIER (LANG_CS),
  chunk_tag_t.mk "real" CT_TYPE (LANG_D),
  chunk_tag_t.mk "ref" CT_QUALIFIER (LANG_CS ||| LANG_VALA),
  chunk_tag_t.mk "region" CT_PP_REGION (LANG_ALL ||| FLAG_PP),
  chunk_tag_t.mk "register" CT_QUALIFIER (LANG_C ||| LANG_CPP),
  chunk_tag_t.mk "reinterpret_cast" CT_TYPE_CAST (LANG_CPP),
  chunk_tag_t.mk "remove" CT_GETSET (LANG_CS),
  chunk_tag_t.mk "restrict" CT_QUALIFIER (LANG_C ||| LANG_CPP),
  chunk_tag_t.mk "return" CT_RETURN (LANG_ALL),
  chunk_tag_t.mk "sbyte" CT_TYPE (LANG_CS),
  chunk_tag_t.mk "scope" CT_D_SCOPE (LANG_D),
  chunk_tag_t.mk "sealed" CT_QUALIFIER (LANG_CS),
  chunk_tag_t.mk "section" CT_PP_SECTION (LANG_PAWN ||| FLAG_PP),
  chunk_tag_t.mk "self" CT_THIS (LANG_OC),
  chunk_tag_t.mk "set" CT_GETSET (LANG_CS ||| LANG_VALA),
  chunk_tag_t.mk "short" CT_TYPE (LANG_ALLC),
  chunk_tag_t.mk "signal" CT_ACCESS (LANG_VALA),
  chunk_tag_t.mk "signals" CT_ACCESS (LANG_CPP),
  chunk_tag_t.mk "signed" CT_TYPE (LANG_C ||| LANG_CPP),
  chunk_tag_t.mk "size_t" CT_TYPE (LANG_ALLC),
  chunk_tag_t.mk "sizeof" CT_SIZEOF (LANG_C ||| LANG_CPP ||| LANG_CS ||| LANG_VALA ||| LANG_PAWN),
  chunk_tag_t.mk "sleep" CT_SIZEOF (LANG_PAWN),
  chunk_tag_t.mk "stackalloc" CT_NEW (LANG_CS),
  chunk_tag_t.mk "state" CT_STATE (LANG_PAWN),
  chunk_tag_t.mk "static" CT_QUALIFIER (LANG_ALL),
  chunk_tag_t.mk "static_cast" CT_TYPE_CAST (LANG_CPP),
  chunk_tag_t.mk "stock" CT_STOCK (LANG_PAWN),
  chunk_tag_t.mk "strictfp" CT_QUALIFIER (LANG_JAVA),
  chunk_tag_t.mk "string" CT_TYPE (LANG_CS ||| LANG_VALA),
  chunk_tag_t.mk "struct" CT_STRUCT (LANG_C ||| LANG_CPP ||| LANG_OC ||| LANG_CS ||| LANG_D ||| LANG_VALA),
  chunk_tag_t.mk "super" CT_SUPER (LANG_D ||| LANG_JAVA ||| LANG_ECMA),
  chunk_tag_t.mk "switch" CT_SWITCH (LANG_ALL),
  chunk_tag_t.mk "synchronized" CT_QUALIFIER (LANG_D ||| LANG_ECMA),
  chunk_tag_t.mk "synchronized" CT_SYNCHRONIZED (LANG_JAVA),
  chunk_tag_t.mk "tagof" CT_TAGOF (LANG_PAWN),
  chunk_tag_t.mk "template" CT_TEMPLATE (LANG_CPP ||| LANG_D),
  chunk_tag_t.mk "this" CT_THIS (LANG_CPP ||| LANG_CS ||| LANG_D ||| LANG_JAVA ||| LANG_VALA ||| LANG_ECMA),
  chunk_tag_t.mk "throw" CT_THROW (LANG_CPP ||| LANG_CS ||| LANG_VALA ||| LANG_D ||| LANG_JAVA ||| LANG_ECMA),
  chunk_tag_t.mk "throws" CT_QUALIFIER (LANG_JAVA ||| LANG_ECMA ||| LANG_VALA),
  chunk_tag_t.mk "transient" CT_QUALIFIER (LANG_JAVA ||| LANG_ECMA),
  chunk_tag_t.mk "true" CT_WORD (LANG_ALL),
  chunk_tag_t.mk "try" CT_TRY (LANG_CPP ||| LANG_CS ||| LANG_D ||| LANG_JAVA ||| LANG_ECMA ||| LANG_VALA),
  chunk_tag_t.mk "tryinclude" CT_PP_INCLUDE (LANG_PAWN ||| FLAG_PP),
  chunk_tag_t.mk "typedef" CT_TYPEDEF (LANG_C ||| LANG_CPP ||| LANG_OC ||| LANG_D),
  chunk_tag_t.mk "typeid" CT_SIZEOF (LANG_CPP ||| LANG_D),
  chunk_tag_t.mk "typename" CT_TYPENAME (LANG_CPP),
  chunk_tag_t.mk "typeof" CT_DECLTYPE (LANG_C ||| LANG_CPP),
  chunk_tag_t.mk "typeof" CT_SIZEOF (LANG_CS ||| LANG_D ||| LANG_VALA ||| LANG_ECMA),
  chunk_tag_t.mk "ubyte" CT_TYPE (LANG_D),
  chunk_tag_t.mk "ucent" CT_TYPE (LANG_D),
  chunk_tag_t.mk "uint" CT_TYPE (LANG_CS ||| LANG_VALA ||| LANG_D),
  chunk_tag_t.mk "ulong" CT_TYPE (LANG_CS ||| LANG_VALA ||| LANG_D),
  chunk_tag_t.mk "unchecked" CT_QUALIFIER (LANG_CS),
  chunk_tag_t.mk "undef" CT_PP_UNDEF (LANG_ALL ||| FLAG_PP),
  chunk_tag_t.mk "union" CT_UNION (LANG_C ||| LANG_CPP ||| LANG_D),
  chunk_tag_t.mk "unittest" CT_UNITTEST (LANG_D),
  chunk_tag_t.mk "unsafe" CT_UNSAFE (LANG_CS),
  chunk_tag_t.mk "unsafe_unretained" CT_QUALIFIER (LANG_OC),
  chunk_tag_t.mk "unsigned" CT_TYPE (LANG_C ||| LANG_CPP),
  chunk_tag_t.mk "ushort" CT_TYPE (LANG_CS ||| LANG_VALA ||| LANG_D),
  chunk_tag_t.mk "using" CT_USING (LANG_CPP ||| LANG_CS ||| LANG_VALA),
  chunk_tag_t.mk "var" CT_TYPE (LANG_CS ||| LANG_VALA ||| LANG_ECMA),
  chunk_tag_t.mk "version" CT_D_VERSION (LANG_D),
  chunk_tag_t.mk "virtual" CT_QUALIFIER (LANG_CPP ||| LANG_CS ||| LANG_VALA),
  chunk_tag_t.mk "void" CT_TYPE (LANG_ALLC),
  chunk_tag_t.mk "volatile" CT_QUALIFIER (LANG_C ||| LANG_CPP ||| LANG_CS ||| LANG_JAVA ||| LANG_ECMA),
  chunk_tag_t.mk "volatile" CT_VOLATILE (LANG_D),
  chunk_tag_t.mk "wchar" CT_TYPE (LANG_D),
  chunk_tag_t.mk "wchar_t" CT_TYPE (LANG_C ||| LANG_CPP),
  chunk_tag_t.mk "weak" CT_QUALIFIER (LANG_VALA),
  chunk_tag_t.mk "when" CT_WHEN (LANG_CS),
  chunk_tag_t.mk "where" CT_WHERE (LANG_CS),
  chunk_tag_t.mk "while" CT_WHILE (LANG_ALL),
  chunk_tag_t.mk "with" CT_D_WITH (LANG_D ||| LANG_ECMA),
  chunk_tag_t.mk "xor" CT_SARITH (LANG_CPP),
  chunk_tag_t.mk "xor_eq" CT_SASSIGN (LANG_CPP)]

/-- Adjacent-pair sortedness of a table under `strcmp` of the spellings: the
invariant checked by `keywords_are_sorted`. -/
def tags_sorted : List chunk_tag_t → Bool
  | a :: b :: rest =>
    match strcmp a.tag b.tag with
    | Ordering.gt => false
    | _ => tags_sorted (b :: rest)
  | _ => true

/-- Modelled from the spec: the "success status" exit code (`sysexits.h`,
outside `src/`). -/
def EX_OK : Nat := 0

/-- Modelled from the spec: the "software-error status" exit code. -/
def EX_SOFTWARE : Nat := 70

/-- Modelled from the spec: the "distinguished I/O-error status" exit code. -/
def EX_IOERR : Nat := 74

/-- The body of `keywords_are_sorted`, parametrised by the table it scans;
`Except.error` models the fatal `exit(EX_SOFTWARE)` path, `Except.ok true`
the normal return. -/
def keywords_are_sorted_loop : List chunk_tag_t → Except Nat Bool
  | a :: b :: rest =>
    match strcmp a.tag b.tag with
    | Ordering.gt => Except.error EX_SOFTWARE
    | _ => keywords_are_sorted_loop (b :: rest)
  | _ => Except.ok true

/-- Validator `keywords_are_sorted` scans the master table for out-of-order adjacent
pairs. -/
def keywords_are_sorted : Except Nat Bool := keywords_are_sorted_loop keywords

/-- Lookup `dkwm.find`: exact-match lookup in the dynamic keyword map
(`std::map<string, E_Token>`, modelled as an association list). -/
def dkw_find : List (String × E_Token) → String → Option E_Token
  | [], _ => none
  | (a, t) :: rest, k => if a = k then some t else dkw_find rest k

/-- Registration `add_keyword`: overwrite the entry if the key is already present, insert
it otherwise. -/
def add_keyword (tag : String) (type : E_Token) :
    List (String × E_Token) → List (String × E_Token)
  | [] => [(tag, type)]
  | (a, t) :: rest =>
    if a = tag then (a, type) :: rest else (a, t) :: add_keyword tag type rest

/-- The mutable global state the keyword core reads and writes: the dynamic
keyword map `dkwm`, the fixed array `keyword_for_lang` with its fill count
`language_count`, and the two fields of `cpd` this code touches. -/
structure KWState where
  dkwm : List (String × E_Token)
  keyword_for_lang : Nat → chunk_tag_t
  language_count : Nat
  lang_flags : Nat
  in_preproc : E_Token

/-- Write `v` into slot `i` of an array modelled as a function. -/
def arr_set (arr : Nat → chunk_tag_t) (i : Nat) (v : chunk_tag_t) : Nat → chunk_tag_t :=
  fun j => if j = i then v else arr j

/-- The filling loop of `init_keywords_for_language`: scan the master table
and copy each entry whose `lang_flags` intersect the active flags into the
next free slot of `keyword_for_lang`. -/
def init_kw_loop (local_flags : Nat) :
    List chunk_tag_t → (Nat → chunk_tag_t) → Nat → ((Nat → chunk_tag_t) × Nat)
  | [], arr, cnt => (arr, cnt)
  | t :: rest, arr, cnt =>
    if (t.lang_flags &&& local_flags) ≠ 0 then
      init_kw_loop local_flags rest (arr_set arr cnt t) (cnt + 1)
    else
      init_kw_loop local_flags rest arr cnt

/-- Activation `init_keywords_for_language`: reset `language_count` to zero and refill
`keyword_for_lang` from the master table and `cpd.lang_flags`. -/
def init_keywords_for_language (s : KWState) : KWState :=
  let r := init_kw_loop s.lang_flags keywords s.keyword_for_lang 0
  { s with keyword_for_lang := r.fst, language_count := r.snd }

/-- The Language-Filtered Catalogue: the first `count` slots of
`keyword_for_lang`, which is the whole portion any lookup consults. -/
def kw_view (arr : Nat → chunk_tag_t) (count : Nat) : List chunk_tag_t :=
  (List.range count).map arr

/-- Modelled from the spec: `language_is_set` (defined outside `src/`) tests
that a flag set "intersects the active language flags". -/
def language_is_set (cpd_lang_flags lang : Nat) : Prop := (cpd_lang_flags &&& lang) ≠ 0

instance (a b : Nat) : Decidable (language_is_set a b) :=
  inferInstanceAs (Decidable ((a &&& b) ≠ 0))

/-- Flag `in_pp` of `kw_static_match`: currently inside a preprocessor directive
other than the one introducing a macro definition. -/
def pp_active (in_preproc : E_Token) : Prop :=
  in_preproc ≠ CT_NONE ∧ in_preproc ≠ CT_PP_DEFINE

instance (t : E_Token) : Decidable (pp_active t) :=
  inferInstanceAs (Decidable (t ≠ CT_NONE ∧ t ≠ CT_PP_DEFINE))

/-- Marker test `pp_iter`: the entry carries the preprocessor-only marker `FLAG_PP`. -/
def pp_flag (t : chunk_tag_t) : Prop := (t.lang_flags &&& FLAG_PP) ≠ 0

instance (t : chunk_tag_t) : Decidable (pp_flag t) :=
  inferInstanceAs (Decidable ((t.lang_flags &&& FLAG_PP) ≠ 0))

/-- The per-entry acceptance test inside `kw_static_match`'s loop: equal
spelling, `language_is_set`, non-zero intersection with the `lang_flags`
parameter, and `in_pp == pp_iter`. -/
def kw_entry_ok (key : String) (in_preproc : E_Token) (cpd_lang lang : Nat)
    (t : chunk_tag_t) : Prop :=
  t.tag = key ∧ language_is_set cpd_lang t.lang_flags ∧ (lang &&& t.lang_flags) ≠ 0 ∧
    (pp_active in_preproc ↔ pp_flag t)

instance (key : String) (ip : E_Token) (cl lf : Nat) (t : chunk_tag_t) :
    Decidable (kw_entry_ok key ip cl lf t) :=
  inferInstanceAs (Decidable (t.tag = key ∧ language_is_set cl t.lang_flags ∧
    (lf &&& t.lang_flags) ≠ 0 ∧ (pp_active ip ↔ pp_flag t)))

/-- The forward scan of `kw_static_match`: return the first accepted entry.
As in the source, the scan runs to the end of the filtered list; entries past
the run are rejected by the spelling test. -/
def kw_scan (key : String) (ip : E_Token) (cl lf : Nat) :
    List chunk_tag_t → Option chunk_tag_t
  | [] => none
  | t :: rest => if kw_entry_ok key ip cl lf t then some t else kw_scan key ip cl lf rest

/-- Run start `kw_static_first`: scan backward from index `i` while the previous entry
has the same spelling; returns the index of the first entry of the run. -/
def kw_static_first_idx (arr : Nat → chunk_tag_t) : Nat → Nat
  | 0 => 0
  | i + 1 => if (arr i).tag = (arr (i + 1)).tag then kw_static_first_idx arr i else i + 1

/-- Matcher `kw_static_match` as called from `find_keyword_type` (always with
`orig_list = false`; the `orig_list = true` branch is dead code in this
translation unit): find the start of the run with `kw_static_first` and scan
forward over `keyword_for_lang[.. language_count]`. -/
def kw_static_match (arr : Nat → chunk_tag_t) (count : Nat) (in_preproc : E_Token)
    (cpd_lang lang_flags : Nat) (j : Nat) : Option chunk_tag_t :=
  kw_scan (arr j).tag in_preproc cpd_lang lang_flags
    ((kw_view arr count).drop (kw_static_first_idx arr j))

/-- One step of libc `bsearch` over `keyword_for_lang[l..u)` with comparator
`kw_compare` (`strcmp` of the spellings). `fuel` only bounds the recursion:
any `fuel ≥ u - l` gives the untruncated search, and the top-level call
passes `count`. -/
def kw_bsearch_go (arr : Nat → chunk_tag_t) (key : String) :
    Nat → Nat → Nat → Option Nat
  | 0, _, _ => none
  | fuel + 1, l, u =>
    if l < u then
      match strcmp key (arr ((l + u) / 2)).tag with
      | Ordering.lt => kw_bsearch_go arr key fuel l ((l + u) / 2)
      | Ordering.gt => kw_bsearch_go arr key fuel ((l + u) / 2 + 1) u
      | Ordering.eq => some ((l + u) / 2)
    else none

/-- Call `bsearch(&key, keyword_for_lang, language_count, sizeof(..), kw_compare)`:
index of some entry whose spelling equals `key`, if one exists. -/
def kw_bsearch (arr : Nat → chunk_tag_t) (key : String) (count : Nat) : Option Nat :=
  kw_bsearch_go arr key count 0 count

/-- Resolution `find_keyword_type`: resolve a word of length `len`, returning the token
kind together with the state after the call (the `__pragma`/`_Pragma` branch
writes `cpd.in_preproc`). The C `string ss(word, len)` is `word.take len`. -/
def find_keyword_type (word : String) (len : Nat) (s : KWState) : E_Token × KWState :=
  if len = 0 then (CT_NONE, s)
  else
    let ss := word.take len
    match dkw_find s.dkwm ss with
    | some t => (t, s)
    | none =>
      match kw_bsearch s.keyword_for_lang ss s.language_count with
      | none => (CT_WORD, s)
      | some j =>
        let s1 :=
          if (s.keyword_for_lang j).tag = "__pragma" ∨ (s.keyword_for_lang j).tag = "_Pragma"
          then { s with in_preproc := CT_PREPROC }
          else s
        match kw_static_match s1.keyword_for_lang s1.language_count s1.in_preproc
                s1.lang_flags s1.lang_flags j with
        | some t => (t.type, s1)
        | none => (CT_WORD, s1)

/-- Modelled from the spec: `CharTable::IsKw1` (defined outside `src/`) tests
"a valid identifier-start character". -/
def IsKw1 (c : Char) : Bool := c.isAlpha || c = '_'

/-- Comment stripping, `strchr(buf, '#')` followed by `*ptr = 0`: the line truncated at its
first `#`. -/
def stripComment (s : String) : String :=
  String.mk (s.data.takeWhile (fun c => c != '#'))

/-- Tokenizer loop for `SplitLine`: `acc` holds the characters of the current
word in reverse. -/
def splitWordsAux : List Char → List Char → List String
  | [], [] => []
  | [], acc => [String.mk acc.reverse]
  | c :: cs, acc =>
    if c.isWhitespace then
      match acc with
      | [] => splitWordsAux cs []
      | _ :: _ => String.mk acc.reverse :: splitWordsAux cs []
    else splitWordsAux cs (c :: acc)

/-- Modelled from the spec: `Args::SplitLine` (defined outside `src/`)
tokenizes a line into whitespace-separated words. -/
def SplitLine (s : String) : List String := splitWordsAux s.data []

/-- The observable outcome of `load_keyword_file`: `ok` is the `EX_OK`
return; the error constructors model the two fatal `exit` calls, `sw_error`
carrying the diagnostic data (file name, 1-based line number, offending
first word). -/
inductive LoadResult where
  | ok
  | io_error
  | sw_error (filename : String) (line_no : Nat) (arg0 : String)
deriving DecidableEq, Repr

/-- The exit status carried by each outcome. -/
def LoadResult.status : LoadResult → Nat
  | LoadResult.ok => EX_OK
  | LoadResult.io_error => EX_IOERR
  | LoadResult.sw_error _ _ _ => EX_SOFTWARE

/-- The line loop of `load_keyword_file`: strip everything from the first
`#`, split, skip lines that are then empty, register one-word
identifier-start lines via `add_keyword .. CT_TYPE`, and stop fatally on
anything else. -/
def load_kw_loop (filename : String) :
    List String → Nat → List (String × E_Token) → LoadResult × List (String × E_Token)
  | [], _, m => (LoadResult.ok, m)
  | line :: rest, line_no, m =>
    let buf := stripComment line
    match SplitLine buf with
    | [] => load_kw_loop filename rest (line_no + 1) m
    | arg0 :: args =>
      if args.isEmpty && IsKw1 arg0.front then
        load_kw_loop filename rest (line_no + 1) (add_keyword arg0 CT_TYPE m)
      else
        (LoadResult.sw_error filename (line_no + 1) arg0, m)

/-- Loader `load_keyword_file`: `none` models a file that cannot be opened (`fopen`
failure ⇒ `exit(EX_IOERR)`); `some lines` is the line sequence `fgets`
yields. Registration is immediate per line, so the map accumulated before a
fatal line is part of the result. -/
def load_keyword_file (filename : String) (source : Option (List String))
    (m : List (String × E_Token)) : LoadResult × List (String × E_Token) :=
  match source with
  | none => (LoadResult.io_error, m)
  | some lines => load_kw_loop filename lines 0 m

/-- Spec-side per-line shape: `none` = malformed (fatal); `some none` = blank
after comment stripping; `some (some w)` = registers `w`. -/
def lineClass (line : String) : Option (Option String) :=
  match SplitLine (stripComment line) with
  | [] => some none
  | [a] => if IsKw1 a.front then some (some a) else none
  | _ :: _ :: _ => none

/-- The words a sequence of well-formed lines registers, in order. -/
def regWords (lines : List String) : List String :=
  lines.filterMap (fun l => (lineClass l).bind id)

/-- Classifier `get_token_pattern_class`. -/
def get_token_pattern_class (tok : E_Token) : pattern_class_e :=
  match tok with
  | CT_IF | CT_ELSEIF | CT_SWITCH | CT_FOR | CT_WHILE | CT_SYNCHRONIZED
  | CT_USING_STMT | CT_LOCK | CT_D_WITH | CT_D_VERSION_IF | CT_D_SCOPE_IF =>
    pattern_class_e.PBRACED
  | CT_ELSE => pattern_class_e.ELSE
  | CT_DO | CT_TRY | CT_FINALLY | CT_BODY | CT_UNITTEST | CT_UNSAFE
  | CT_VOLATILE | CT_GETSET => pattern_class_e.BRACED
  | CT_CATCH | CT_D_VERSION | CT_DEBUG => pattern_class_e.OPBRACED
  | CT_NAMESPACE => pattern_class_e.VBRACED
  | CT_WHILE_OF_DO => pattern_class_e.PAREN
  | CT_INVARIANT => pattern_class_e.OPPAREN
  | _ => pattern_class_e.NONE

/-- First element of a list satisfying a decidable predicate. -/
def findFirst (P : chunk_tag_t → Prop) [DecidablePred P] :
    List chunk_tag_t → Option chunk_tag_t
  | [] => none
  | a :: l => if P a then some a else findFirst P l

/-- The contiguous run: all entries of a list sharing the given spelling, in
order. -/
def runOf (ss : String) : List chunk_tag_t → List chunk_tag_t
  | [] => []
  | e :: l => if e.tag = ss then e :: runOf ss l else runOf ss l

/-- The claim-side acceptance condition: applicability intersects the active
language flags and the preprocessor-only marker agrees with the given
preprocessor context. -/
def claim_ok (lang : Nat) (ctx : E_Token) (e : chunk_tag_t) : Prop :=
  (lang &&& e.lang_flags) ≠ 0 ∧ (pp_active ctx ↔ pp_flag e)

instance (lang : Nat) (ctx : E_Token) (e : chunk_tag_t) : Decidable (claim_ok lang ctx e) :=
  inferInstanceAs (Decidable ((lang &&& e.lang_flags) ≠ 0 ∧ (pp_active ctx ↔ pp_flag e)))

/-- The preprocessor context in effect at the run-filtering step of a lookup:
forced to `CT_PREPROC` for the two directive-introducer spellings (spec §4.4
step 4), unchanged otherwise. -/
def effective_ctx (ss : String) (s : KWState) : E_Token :=
  if ss = "__pragma" ∨ ss = "_Pragma" then CT_PREPROC else s.in_preproc

/-- A fresh state: empty dynamic map, untouched array, zero count. -/
def empty_state (flags : Nat) : KWState :=
  KWState.mk [] (fun _ => default) 0 flags CT_NONE

/-- The state right after selecting a language: `init_keywords_for_language`
on a fresh state carrying the given `cpd.lang_flags`. -/
def mk_lang_state (flags : Nat) : KWState := init_keywords_for_language (empty_state flags)

theorem charListCmp_eq_iff : ∀ a b : List Char, charListCmp a b = Ordering.eq ↔ a = b := by
  intro a
  induction a with
  | nil => intro b; cases b <;> simp [charListCmp]
  | cons x xs ih =>
    intro b
    cases b with
    | nil => simp [charListCmp]
    | cons y ys =>
      simp only [charListCmp]
      split_ifs with h1 h2
      · subst h1; rw [ih ys]; simp
      · simp [h1]
      · simp [h1]

theorem charListCmp_lt_gt : ∀ a b : List Char,
    charListCmp a b = Ordering.lt → charListCmp b a = Ordering.gt := by
  intro a
  induction a with
  | nil => intro b h; cases b with
    | nil => simp [charListCmp] at h
    | cons y ys => simp [charListCmp]
  | cons x xs ih =>
    intro b h
    cases b with
    | nil => simp [charListCmp] at h
    | cons y ys =>
      simp only [charListCmp] at h ⊢
      split_ifs at h with h1 h2
      · subst h1
        rw [if_pos rfl]
        exact ih ys h
      · have hyx : ¬ y = x := fun e => h1 e.symm
        have hlt : ¬ y.toNat < x.toNat := Nat.not_lt.mpr (Nat.le_of_lt h2)
        rw [if_neg hyx, if_neg hlt]

theorem charListCmp_le_trans : ∀ a b c : List Char,
    charListCmp a b ≠ Ordering.gt → charListCmp b c ≠ Ordering.gt →
    charListCmp a c ≠ Ordering.gt := by
  intro a
  induction a with
  | nil =>
    intro b c _ _
    cases c <;> simp [charListCmp]
  | cons x xs ih =>
    intro b c hab hbc
    cases b with
    | nil => simp [charListCmp] at hab
    | cons y ys =>
      cases c with
      | nil => simp [charListCmp] at hbc
      | cons z zs =>
        simp only [charListCmp] at hab hbc ⊢
        split_ifs at hab with h1 h2
        · -- x = y
          subst h1
          split_ifs at hbc with h3 h4
          · -- y = z
            subst h3
            rw [if_pos rfl]
            exact ih ys zs hab hbc
          · -- y ≠ z, y < z
            have hxz : ¬ x = z := h3
            rw [if_neg hxz, if_pos h4]
            simp
          · exact absurd rfl hbc
        · -- x ≠ y, x < y
          split_ifs at hbc with h3 h4
          · -- y = z
            subst h3
            rw [if_neg h1, if_pos h2]
            simp
          · -- y < z
            have hxz : x.toNat < z.toNat := Nat.lt_trans h2 h4
            have hne : ¬ x = z := fun e => by rw [e] at hxz; exact Nat.lt_irrefl _ hxz
            rw [if_neg hne, if_pos hxz]
            simp
          · exact absurd rfl hbc
        · exact absurd rfl hab

theorem charListCmp_le_antisymm : ∀ a b : List Char,
    charListCmp a b ≠ Ordering.gt → charListCmp b a ≠ Ordering.gt → a = b := by
  intro a
  induction a with
  | nil =>
    intro b _ hba
    cases b with
    | nil => rfl
    | cons y ys => simp [charListCmp] at hba
  | cons x xs ih =>
    intro b hab hba
    cases b with
    | nil => simp [charListCmp] at hab
    | cons y ys =>
      simp only [charListCmp] at hab hba
      split_ifs at hab with h1 h2
      · subst h1
        rw [if_pos rfl] at hba
        rw [ih ys hab hba]
      · have hyx : ¬ y = x := fun e => h1 e.symm
        have hlt : ¬ y.toNat < x.toNat := Nat.not_lt.mpr (Nat.le_of_lt h2)
        rw [if_neg hyx, if_neg hlt] at hba
        exact absurd rfl hba
      · exact absurd rfl hab

theorem strcmp_eq_iff (a b : String) : strcmp a b = Ordering.eq ↔ a = b := by
  rw [strcmp, charListCmp_eq_iff]
  exact ⟨fun h => String.toList_inj.mp h, fun h => by rw [h]⟩

theorem strcmp_lt_gt (a b : String) (h : strcmp a b = Ordering.lt) :
    strcmp b a = Ordering.gt := charListCmp_lt_gt a.data b.data h

theorem strLe_refl (a : String) : strLe a a := by
  intro h
  have := (strcmp_eq_iff a a).mpr rfl
  rw [this] at h
  exact Ordering.noConfusion h

theorem strLe_trans {a b c : String} (hab : strLe a b) (hbc : strLe b c) : strLe a c :=
  charListCmp_le_trans a.data b.data c.data hab hbc

theorem strLe_antisymm {a b : String} (hab : strLe a b) (hba : strLe b a) : a = b := by
  have := charListCmp_le_antisymm a.data b.data hab hba
  exact String.toList_inj.mp this

theorem tags_sorted_cons {a b : chunk_tag_t} {l : List chunk_tag_t} :
    tags_sorted (a :: b :: l) = true ↔ (strLe a.tag b.tag ∧ tags_sorted (b :: l) = true) := by
  rcases h : strcmp a.tag b.tag <;>
    simp [tags_sorted, strLe, h]

theorem tags_sorted_adj {l : List chunk_tag_t} (h : tags_sorted l = true) :
    ∀ i, i + 1 < l.length → strLe (l.getD i default).tag (l.getD (i + 1) default).tag := by
  induction l with
  | nil => intro i hi; simp at hi
  | cons a tl ih =>
    cases tl with
    | nil => intro i hi; simp at hi
    | cons b tl2 =>
      have hd := tags_sorted_cons.mp h
      intro i hi
      cases i with
      | zero => simpa using hd.1
      | succ n =>
        have := ih hd.2 n (by simp at hi ⊢; omega)
        simpa using this

theorem tags_sorted_mono {l : List chunk_tag_t} (h : tags_sorted l = true) :
    ∀ i j, i ≤ j → j < l.length →
      strLe (l.getD i default).tag (l.getD j default).tag := by
  intro i j hij
  induction j with
  | zero =>
    intro _
    have : i = 0 := Nat.le_zero.mp hij
    subst this
    exact strLe_refl _
  | succ n ihn =>
    intro hlen
    rcases Nat.lt_or_ge i (n + 1) with hlt | hge
    · have h1 := ihn (Nat.lt_succ_iff.mp hlt) (Nat.lt_of_succ_lt hlen)
      exact strLe_trans h1 (tags_sorted_adj h n hlen)
    · have : i = n + 1 := Nat.le_antisymm hij hge
      subst this
      exact strLe_refl _

theorem kw_view_length (arr : Nat → chunk_tag_t) (count : Nat) :
    (kw_view arr count).length = count := by simp [kw_view]

theorem kw_view_getD (arr : Nat → chunk_tag_t) {count i : Nat} (h : i < count) :
    (kw_view arr count).getD i default = arr i := by
  have h' : i < (kw_view arr count).length := by simpa [kw_view]
  rw [List.getD_eq_getElem _ _ h']
  simp [kw_view]

theorem kw_view_mem {arr : Nat → chunk_tag_t} {count : Nat} {e : chunk_tag_t} :
    e ∈ kw_view arr count ↔ ∃ i, i < count ∧ arr i = e := by
  simp [kw_view]

theorem kw_view_mono {arr : Nat → chunk_tag_t} {count : Nat}
    (h : tags_sorted (kw_view arr count) = true) :
    ∀ i j, i ≤ j → j < count → strLe (arr i).tag (arr j).tag := by
  intro i j hij hj
  have hi : i < count := Nat.lt_of_le_of_lt hij hj
  have := tags_sorted_mono h i j hij (by simpa [kw_view_length] using hj)
  rwa [kw_view_getD arr hi, kw_view_getD arr hj] at this

theorem kw_scan_eq_findFirst (key : String) (ip : E_Token) (cl lf : Nat)
    (l : List chunk_tag_t) :
    kw_scan key ip cl lf l = findFirst (kw_entry_ok key ip cl lf) l := by
  induction l with
  | nil => rfl
  | cons e tl ih => simp [kw_scan, findFirst, ih]

theorem kw_scan_drop (key : String) (ip : E_Token) (cl lf : Nat) :
    ∀ (j : Nat) (l : List chunk_tag_t),
      (∀ i, i < j → i < l.length → (l.getD i default).tag ≠ key) →
      kw_scan key ip cl lf (l.drop j) = kw_scan key ip cl lf l := by
  intro j
  induction j with
  | zero => intro l _; rw [List.drop_zero]
  | succ n ih =>
    intro l h
    cases l with
    | nil => simp
    | cons e tl =>
      have he : e.tag ≠ key := by simpa using h 0 (Nat.succ_pos n) (by simp)
      have step : kw_scan key ip cl lf (e :: tl) = kw_scan key ip cl lf tl := by
        rw [kw_scan, if_neg (fun hc => he hc.1)]
      rw [List.drop_succ_cons, step]
      exact ih tl (fun i hi hil => by
        have := h (i + 1) (Nat.succ_lt_succ hi) (by simpa using Nat.succ_lt_succ hil)
        simpa using this)

theorem findFirst_eq_none_iff (P : chunk_tag_t → Prop) [DecidablePred P]
    (l : List chunk_tag_t) :
    findFirst P l = none ↔ ∀ e ∈ l, ¬ P e := by
  induction l with
  | nil => simp [findFirst]
  | cons e tl ih =>
    rw [findFirst]
    by_cases hp : P e
    · simp [hp]
    · simp [hp, ih]

theorem findFirst_some (P : chunk_tag_t → Prop) [DecidablePred P]
    {l : List chunk_tag_t} {t : chunk_tag_t} (h : findFirst P l = some t) :
    t ∈ l ∧ P t := by
  induction l with
  | nil => simp [findFirst] at h
  | cons e tl ih =>
    rw [findFirst] at h
    by_cases hp : P e
    · rw [if_pos hp] at h
      cases h
      exact ⟨List.mem_cons_self .., hp⟩
    · rw [if_neg hp] at h
      have := ih h
      exact ⟨List.mem_cons_of_mem _ this.1, this.2⟩

theorem findFirst_congr {P Q : chunk_tag_t → Prop} [DecidablePred P] [DecidablePred Q]
    (h : ∀ e, P e ↔ Q e) (l : List chunk_tag_t) : findFirst P l = findFirst Q l := by
  induction l with
  | nil => rfl
  | cons e tl ih =>
    rw [findFirst, findFirst]
    by_cases hp : P e
    · rw [if_pos hp, if_pos ((h e).mp hp)]
    · rw [if_neg hp, if_neg (fun hq => hp ((h e).mpr hq)), ih]

theorem mem_runOf {ss : String} {e : chunk_tag_t} :
    ∀ {l : List chunk_tag_t}, e ∈ runOf ss l ↔ e ∈ l ∧ e.tag = ss := by
  intro l
  induction l with
  | nil => simp [runOf]
  | cons a tl ih =>
    rw [runOf]
    by_cases h : a.tag = ss
    · rw [if_pos h]
      constructor
      · intro hm
        rcases List.mem_cons.mp hm with he | hm2
        · exact ⟨by simp [he], by rw [he, h]⟩
        · exact ⟨List.mem_cons_of_mem _ (ih.mp hm2).1, (ih.mp hm2).2⟩
      · intro ⟨hm, ht⟩
        rcases List.mem_cons.mp hm with he | hm2
        · simp [he]
        · exact List.mem_cons_of_mem _ (ih.mpr ⟨hm2, ht⟩)
    · rw [if_neg h]
      rw [ih]
      constructor
      · intro ⟨hm, ht⟩
        exact ⟨List.mem_cons_of_mem _ hm, ht⟩
      · intro ⟨hm, ht⟩
        rcases List.mem_cons.mp hm with he | hm2
        · exact absurd (by rw [← he]; exact ht) h
        · exact ⟨hm2, ht⟩

theorem findFirst_runOf (P : chunk_tag_t → Prop) [DecidablePred P] (ss : String) :
    ∀ l : List chunk_tag_t,
      findFirst P (runOf ss l) = findFirst (fun e => e.tag = ss ∧ P e) l := by
  intro l
  induction l with
  | nil => rfl
  | cons e tl ih =>
    rw [runOf, findFirst]
    by_cases h : e.tag = ss
    · rw [if_pos h, findFirst]
      by_cases hp : P e
      · rw [if_pos hp, if_pos ⟨h, hp⟩]
      · rw [if_neg hp, if_neg (fun hc => hp hc.2), ih]
    · rw [if_neg h, if_neg (fun hc => h hc.1), ih]

theorem ksf_le (arr : Nat → chunk_tag_t) : ∀ i, kw_static_first_idx arr i ≤ i := by
  intro i
  induction i with
  | zero => exact Nat.le_refl 0
  | succ n ih =>
    rw [kw_static_first_idx]
    by_cases h : (arr n).tag = (arr (n + 1)).tag
    · rw [if_pos h]; exact Nat.le_succ_of_le ih
    · rw [if_neg h]

theorem ksf_tag (arr : Nat → chunk_tag_t) :
    ∀ i, (arr (kw_static_first_idx arr i)).tag = (arr i).tag := by
  intro i
  induction i with
  | zero => rfl
  | succ n ih =>
    rw [kw_static_first_idx]
    by_cases h : (arr n).tag = (arr (n + 1)).tag
    · rw [if_pos h, ih, h]
    · rw [if_neg h]

theorem ksf_break (arr : Nat → chunk_tag_t) :
    ∀ i, kw_static_first_idx arr i = 0 ∨
      (arr (kw_static_first_idx arr i - 1)).tag ≠ (arr (kw_static_first_idx arr i)).tag := by
  intro i
  induction i with
  | zero => exact Or.inl rfl
  | succ n ih =>
    rw [kw_static_first_idx]
    by_cases h : (arr n).tag = (arr (n + 1)).tag
    · rw [if_pos h]; exact ih
    · rw [if_neg h]
      exact Or.inr (by simpa using h)

theorem no_earlier_in_run {arr : Nat → chunk_tag_t} {count j : Nat}
    (hsort : tags_sorted (kw_view arr count) = true) (hj : j < count) :
    ∀ i, i < kw_static_first_idx arr j → (arr i).tag ≠ (arr j).tag := by
  intro i hi hkey
  have hf_le : kw_static_first_idx arr j ≤ j := ksf_le arr j
  have hf_tag : (arr (kw_static_first_idx arr j)).tag = (arr j).tag := ksf_tag arr j
  rcases ksf_break arr j with h0 | hbreak
  · rw [h0] at hi; exact Nat.not_lt_zero i hi
  · have hfpos : 0 < kw_static_first_idx arr j := Nat.pos_of_ne_zero (by
      intro h0; rw [h0] at hi; exact Nat.not_lt_zero i hi)
    have h1 : strLe (arr i).tag (arr (kw_static_first_idx arr j - 1)).tag :=
      kw_view_mono hsort i (kw_static_first_idx arr j - 1)
        (by omega) (by omega)
    have h2 : strLe (arr (kw_static_first_idx arr j - 1)).tag
        (arr (kw_static_first_idx arr j)).tag :=
      kw_view_mono hsort (kw_static_first_idx arr j - 1) (kw_static_first_idx arr j)
        (by omega) (by omega)
    rw [hkey] at h1
    have : (arr (kw_static_first_idx arr j - 1)).tag = (arr j).tag :=
      strLe_antisymm (by rwa [hf_tag] at h2) h1
    exact hbreak (by rw [this, hf_tag])

theorem kw_bsearch_go_sound {arr : Nat → chunk_tag_t} {key : String} :
    ∀ fuel l u j, kw_bsearch_go arr key fuel l u = some j →
      l ≤ j ∧ j < u ∧ (arr j).tag = key := by
  intro fuel
  induction fuel with
  | zero => intro l u j h; simp [kw_bsearch_go] at h
  | succ n ih =>
    intro l u j h
    rw [kw_bsearch_go] at h
    by_cases hlu : l < u
    · rw [if_pos hlu] at h
      rcases hcmp : strcmp key (arr ((l + u) / 2)).tag with _ | _ | _ <;> rw [hcmp] at h
      · have := ih l ((l + u) / 2) j h
        exact ⟨this.1, by omega, this.2.2⟩
      · cases h
        refine ⟨by omega, by omega, ?_⟩
        exact ((strcmp_eq_iff ..).mp hcmp).symm
      · have := ih ((l + u) / 2 + 1) u j h
        exact ⟨by omega, this.2.1, this.2.2⟩
    · rw [if_neg hlu] at h
      exact absurd h (by simp)

theorem kw_bsearch_go_complete {arr : Nat → chunk_tag_t} {key : String} {count : Nat}
    (hmono : ∀ i j, i ≤ j → j < count → strLe (arr i).tag (arr j).tag) :
    ∀ fuel l u, u - l ≤ fuel → u ≤ count →
      (∃ i, l ≤ i ∧ i < u ∧ (arr i).tag = key) →
      (kw_bsearch_go arr key fuel l u).isSome = true := by
  intro fuel
  induction fuel with
  | zero =>
    intro l u hfuel _ ⟨i, hli, hiu, _⟩
    omega
  | succ n ih =>
    intro l u hfuel hu ⟨i, hli, hiu, hkey⟩
    have hlu : l < u := Nat.lt_of_le_of_lt hli hiu
    rw [kw_bsearch_go, if_pos hlu]
    rcases hcmp : strcmp key (arr ((l + u) / 2)).tag with _ | _ | _
    · -- key < arr m: the witness must be below m
      have him : i < (l + u) / 2 := by
        by_contra hge
        have hmi : (l + u) / 2 ≤ i := Nat.le_of_not_lt hge
        have := hmono ((l + u) / 2) i hmi (Nat.lt_of_lt_of_le hiu hu)
        rw [hkey] at this
        exact this (strcmp_lt_gt _ _ hcmp)
      exact ih l ((l + u) / 2) (by omega) (by omega) ⟨i, hli, him, hkey⟩
    · simp
    · -- arr m < key: the witness must be above m
      have hmi : (l + u) / 2 < i := by
        by_contra hge
        have him : i ≤ (l + u) / 2 := Nat.le_of_not_lt hge
        have := hmono i ((l + u) / 2) him (by omega)
        rw [hkey] at this
        exact this hcmp
      exact ih ((l + u) / 2 + 1) u (by omega) hu ⟨i, by omega, hiu, hkey⟩

theorem kw_bsearch_sound {arr : Nat → chunk_tag_t} {key : String} {count j : Nat}
    (h : kw_bsearch arr key count = some j) : j < count ∧ (arr j).tag = key := by
  have := kw_bsearch_go_sound count 0 count j h
  exact ⟨this.2.1, this.2.2⟩

theorem kw_bsearch_complete {arr : Nat → chunk_tag_t} {key : String} {count : Nat}
    (hsort : tags_sorted (kw_view arr count) = true)
    {i : Nat} (hi : i < count) (hkey : (arr i).tag = key) :
    (kw_bsearch arr key count).isSome = true :=
  kw_bsearch_go_complete (kw_view_mono hsort) count 0 count (by omega) (Nat.le_refl _)
    ⟨i, Nat.zero_le i, hi, hkey⟩

theorem kw_static_match_eq {arr : Nat → chunk_tag_t} {count : Nat}
    (ip : E_Token) (cl lf : Nat) {j : Nat}
    (hsort : tags_sorted (kw_view arr count) = true) (hj : j < count) :
    kw_static_match arr count ip cl lf j =
      findFirst (kw_entry_ok (arr j).tag ip cl lf) (kw_view arr count) := by
  rw [kw_static_match, kw_scan_drop _ _ _ _ _ _ (fun i hi hil => by
    rw [kw_view_getD arr (by simpa [kw_view_length] using hil)]
    exact no_earlier_in_run hsort hj i hi)]
  exact kw_scan_eq_findFirst ..

theorem kw_entry_ok_iff_claim (key : String) (ip : E_Token) (lf : Nat) (e : chunk_tag_t) :
    kw_entry_ok key ip lf lf e ↔ (e.tag = key ∧ claim_ok lf ip e) := by
  simp only [kw_entry_ok, claim_ok, language_is_set]
  tauto

theorem keywords_are_sorted_loop_eq : ∀ tbl : List chunk_tag_t,
    keywords_are_sorted_loop tbl =
      (if tags_sorted tbl = true then Except.ok true else Except.error EX_SOFTWARE) := by
  intro tbl
  induction tbl with
  | nil => rfl
  | cons a tl ih =>
    cases tl with
    | nil => rfl
    | cons b tl2 =>
      rcases h : strcmp a.tag b.tag <;>
        simp [keywords_are_sorted_loop, tags_sorted, h, ih]

theorem tags_sorted_iff_chain : ∀ l : List chunk_tag_t,
    tags_sorted l = true ↔ List.Chain' (fun a b => strLe a.tag b.tag) l := by
  intro l
  induction l with
  | nil => simp [tags_sorted]
  | cons a tl ih =>
    cases tl with
    | nil => simp [tags_sorted]
    | cons b tl2 =>
      rw [tags_sorted_cons, List.chain'_cons, ih]

/-- C3: every adjacent pair of the master catalogue is in byte-wise `strcmp`
order (spellings weakly increasing, hence equal spellings contiguous);
`keywords_are_sorted` returns `true` on the real table — and on any table
satisfying the invariant — while any table with an out-of-order adjacent pair
takes the fatal `exit(EX_SOFTWARE)` configuration-error path. -/
theorem keywords_master_catalogue_sorted :
    tags_sorted keywords = true ∧
    keywords_are_sorted = Except.ok true ∧
    (∀ l : List chunk_tag_t,
      tags_sorted l = true ↔ List.Chain' (fun a b => strLe a.tag b.tag) l) ∧
    (∀ tbl : List chunk_tag_t, tags_sorted tbl = true →
      keywords_are_sorted_loop tbl = Except.ok true) ∧
    (∀ tbl : List chunk_tag_t, tags_sorted tbl ≠ true →
      keywords_are_sorted_loop tbl = Except.error EX_SOFTWARE) := by
  refine ⟨by decide, ?_, tags_sorted_iff_chain, ?_, ?_⟩
  · rw [keywords_are_sorted, keywords_are_sorted_loop_eq, if_pos (by decide)]
  · intro tbl h
    rw [keywords_are_sorted_loop_eq, if_pos h]
  · intro tbl h
    rw [keywords_are_sorted_loop_eq, if_neg h]

theorem keywords_master_catalogue_sorted_witness :
    keywords_are_sorted_loop
        [chunk_tag_t.mk "b" CT_WORD 1, chunk_tag_t.mk "a" CT_WORD 1] =
      Except.error EX_SOFTWARE ∧
    keywords_are_sorted_loop
        [chunk_tag_t.mk "a" CT_WORD 1, chunk_tag_t.mk "b" CT_WORD 1] =
      Except.ok true :=
  ⟨keywords_master_catalogue_sorted.2.2.2.2 _ (by decide),
   keywords_master_catalogue_sorted.2.2.2.1 _ (by decide)⟩

/-- C9: a zero-length word resolves to `CT_NONE`, distinct from the generic
identifier kind `CT_WORD`, with the state untouched — whatever the registry,
the flags and the preprocessor context hold. -/
theorem find_keyword_type_empty (word : String) (s : KWState) :
    find_keyword_type word 0 s = (CT_NONE, s) ∧ CT_NONE ≠ CT_WORD := by
  exact ⟨rfl, by decide⟩

/-- C2: a word present in the Override Registry resolves to the override's
kind unconditionally, for any state (any language flags, any preprocessor
context, any catalogue contents). -/
theorem find_keyword_type_override (word : String) (len : Nat) (s : KWState)
    (k : E_Token) (hlen : len ≠ 0)
    (hk : dkw_find s.dkwm (word.take len) = some k) :
    (find_keyword_type word len s).fst = k := by
  simp only [find_keyword_type, if_neg hlen, hk]

theorem find_keyword_type_override_witness :
    (find_keyword_type "interface" 9
      { mk_lang_state LANG_CPP with dkwm := [("interface", CT_TYPE)] }).fst = CT_TYPE :=
  find_keyword_type_override "interface" 9 _ CT_TYPE (by decide) (by decide)

/-- C7: `get_token_pattern_class` is total: the conditional/loop-like kinds
map to paren-then-braced, `else` to else-like, the block-only kinds to
braced-only, `catch`/`version`/`debug` to optional-paren-then-braced,
`namespace` to identifier-then-braced, `while`-of-`do` to paren-only,
`invariant` to optional-paren-only, and every kind outside this closed set
to none. -/
theorem get_token_pattern_class_total :
    (∀ t ∈ [CT_IF, CT_ELSEIF, CT_SWITCH, CT_FOR, CT_WHILE, CT_SYNCHRONIZED,
            CT_USING_STMT, CT_LOCK, CT_D_WITH, CT_D_VERSION_IF, CT_D_SCOPE_IF],
      get_token_pattern_class t = pattern_class_e.PBRACED) ∧
    get_token_pattern_class CT_ELSE = pattern_class_e.ELSE ∧
    (∀ t ∈ [CT_DO, CT_TRY, CT_FINALLY, CT_BODY, CT_UNITTEST, CT_UNSAFE,
            CT_VOLATILE, CT_GETSET],
      get_token_pattern_class t = pattern_class_e.BRACED) ∧
    (∀ t ∈ [CT_CATCH, CT_D_VERSION, CT_DEBUG],
      get_token_pattern_class t = pattern_class_e.OPBRACED) ∧
    get_token_pattern_class CT_NAMESPACE = pattern_class_e.VBRACED ∧
    get_token_pattern_class CT_WHILE_OF_DO = pattern_class_e.PAREN ∧
    get_token_pattern_class CT_INVARIANT = pattern_class_e.OPPAREN ∧
    (∀ tok : E_Token,
      tok ∉ [CT_IF, CT_ELSEIF, CT_SWITCH, CT_FOR, CT_WHILE, CT_SYNCHRONIZED,
             CT_USING_STMT, CT_LOCK, CT_D_WITH, CT_D_VERSION_IF, CT_D_SCOPE_IF,
             CT_ELSE, CT_DO, CT_TRY, CT_FINALLY, CT_BODY, CT_UNITTEST, CT_UNSAFE,
             CT_VOLATILE, CT_GETSET, CT_CATCH, CT_D_VERSION, CT_DEBUG,
             CT_NAMESPACE, CT_WHILE_OF_DO, CT_INVARIANT] →
      get_token_pattern_class tok = pattern_class_e.NONE) := by
  refine ⟨by decide, rfl, by decide, by decide, rfl, rfl, rfl, ?_⟩
  intro tok h
  cases tok <;> first
    | rfl
    | exact absurd (by decide) h

theorem get_token_pattern_class_total_witness :
    get_token_pattern_class CT_FOR = pattern_class_e.PBRACED ∧
    get_token_pattern_class CT_WORD = pattern_class_e.NONE :=
  ⟨get_token_pattern_class_total.1 CT_FOR (by decide),
   get_token_pattern_class_total.2.2.2.2.2.2.2 CT_WORD (by decide)⟩

theorem init_kw_loop_spec (flags : Nat) : ∀ (tbl : List chunk_tag_t)
    (arr : Nat → chunk_tag_t) (cnt : Nat),
    cnt ≤ (init_kw_loop flags tbl arr cnt).snd ∧
    (∀ i, i < cnt → (init_kw_loop flags tbl arr cnt).fst i = arr i) ∧
    (List.range' cnt ((init_kw_loop flags tbl arr cnt).snd - cnt)).map
        (init_kw_loop flags tbl arr cnt).fst
      = tbl.filter (fun t => decide ((t.lang_flags &&& flags) ≠ 0)) := by
  intro tbl
  induction tbl with
  | nil =>
    intro arr cnt
    refine ⟨Nat.le_refl _, fun i _ => rfl, ?_⟩
    simp [init_kw_loop]
  | cons t rest ih =>
    intro arr cnt
    by_cases hp : (t.lang_flags &&& flags) ≠ 0
    · have e : init_kw_loop flags (t :: rest) arr cnt
          = init_kw_loop flags rest (arr_set arr cnt t) (cnt + 1) := by
        rw [init_kw_loop, if_pos hp]
      obtain ⟨ih1, ih2, ih3⟩ := ih (arr_set arr cnt t) (cnt + 1)
      rw [e]
      refine ⟨by omega, ?_, ?_⟩
      · intro i hi
        rw [ih2 i (by omega)]
        simp only [arr_set]
        rw [if_neg (by omega)]
      · have hsplit : (init_kw_loop flags rest (arr_set arr cnt t) (cnt + 1)).snd - cnt
            = ((init_kw_loop flags rest (arr_set arr cnt t) (cnt + 1)).snd - (cnt + 1)) + 1 := by
          omega
        rw [hsplit, List.range'_succ, List.map_cons, ih3]
        have hc : (init_kw_loop flags rest (arr_set arr cnt t) (cnt + 1)).fst cnt = t := by
          rw [ih2 cnt (Nat.lt_succ_self cnt)]
          simp [arr_set]
        rw [hc]
        simp [hp]
    · have e : init_kw_loop flags (t :: rest) arr cnt
          = init_kw_loop flags rest arr cnt := by
        rw [init_kw_loop, if_neg hp]
      obtain ⟨ih1, ih2, ih3⟩ := ih arr cnt
      rw [e]
      refine ⟨ih1, ih2, ?_⟩
      rw [ih3]
      simp [hp]

theorem init_view (s : KWState) :
    kw_view (init_keywords_for_language s).keyword_for_lang
        (init_keywords_for_language s).language_count
      = keywords.filter (fun t => decide ((t.lang_flags &&& s.lang_flags) ≠ 0)) := by
  have h := (init_kw_loop_spec s.lang_flags keywords s.keyword_for_lang 0).2.2
  simp only [init_keywords_for_language, kw_view]
  rw [List.range_eq_range']
  simpa using h

/-- C4: for every flag set and regardless of any previously built filtered
view, `init_keywords_for_language` leaves the Language-Filtered Catalogue
(the consulted prefix of `keyword_for_lang`) equal to exactly the ordered
subsequence of master entries whose `lang_flags` intersect the flags; a
repeated call — with the same or different flags — fully replaces the
previous view, never appending to it. -/
theorem init_keywords_for_language_view (s : KWState) :
    (kw_view (init_keywords_for_language s).keyword_for_lang
        (init_keywords_for_language s).language_count
      = keywords.filter (fun t => decide ((t.lang_flags &&& s.lang_flags) ≠ 0))) ∧
    ∀ flags2 : Nat,
      kw_view (init_keywords_for_language
            { init_keywords_for_language s with lang_flags := flags2 }).keyword_for_lang
          (init_keywords_for_language
            { init_keywords_for_language s with lang_flags := flags2 }).language_count
        = keywords.filter (fun t => decide ((t.lang_flags &&& flags2) ≠ 0)) := by
  refine ⟨init_view s, fun flags2 => ?_⟩
  exact init_view { init_keywords_for_language s with lang_flags := flags2 }

theorem kw_static_match_run {arr : Nat → chunk_tag_t} {count : Nat} (ip : E_Token)
    (lf : Nat) {j : Nat} {ss : String}
    (hsort : tags_sorted (kw_view arr count) = true) (hj : j < count)
    (htagj : (arr j).tag = ss) :
    kw_static_match arr count ip lf lf j =
      findFirst (claim_ok lf ip) (runOf ss (kw_view arr count)) := by
  rw [kw_static_match_eq ip lf lf hsort hj, htagj,
    findFirst_runOf (claim_ok lf ip) ss (kw_view arr count)]
  exact findFirst_congr (kw_entry_ok_iff_claim ss ip lf) _

/-- C10 (frame): `find_keyword_type` never modifies the Override Registry,
the Master Catalogue (`keyword_for_lang` and its count) or the language
flags, and writes `in_preproc` (to `CT_PREPROC`) exactly when the word is
nonempty, misses the registry, and binary search finds the spelling
`__pragma` or `_Pragma` in the filtered catalogue. -/
theorem find_keyword_type_frame (word : String) (len : Nat) (s : KWState) :
    (find_keyword_type word len s).snd.dkwm = s.dkwm ∧
    (find_keyword_type word len s).snd.keyword_for_lang = s.keyword_for_lang ∧
    (find_keyword_type word len s).snd.language_count = s.language_count ∧
    (find_keyword_type word len s).snd.lang_flags = s.lang_flags ∧
    (find_keyword_type word len s).snd.in_preproc =
      (if len ≠ 0 ∧ dkw_find s.dkwm (word.take len) = none ∧
          (kw_bsearch s.keyword_for_lang (word.take len) s.language_count).isSome = true ∧
          (word.take len = "__pragma" ∨ word.take len = "_Pragma")
       then CT_PREPROC else s.in_preproc) := by
  by_cases hlen : len = 0
  · simp [find_keyword_type, hlen]
  · cases hov : dkw_find s.dkwm (word.take len) with
    | some k => simp [find_keyword_type, hlen, hov]
    | none =>
      cases hbs : kw_bsearch s.keyword_for_lang (word.take len) s.language_count with
      | none => simp [find_keyword_type, hlen, hov, hbs]
      | some j =>
        have htag : (s.keyword_for_lang j).tag = word.take len := (kw_bsearch_sound hbs).2
        by_cases hprag : word.take len = "__pragma" ∨ word.take len = "_Pragma"
        · have hcond : (s.keyword_for_lang j).tag = "__pragma" ∨
              (s.keyword_for_lang j).tag = "_Pragma" := by rw [htag]; exact hprag
          simp only [find_keyword_type, if_neg hlen, hov, hbs, if_pos hcond]
          cases kw_static_match s.keyword_for_lang s.language_count CT_PREPROC
              s.lang_flags s.lang_flags j <;>
            simp [hlen, hov, hbs, hprag]
        · have hcond : ¬ ((s.keyword_for_lang j).tag = "__pragma" ∨
              (s.keyword_for_lang j).tag = "_Pragma") := by rw [htag]; exact hprag
          simp only [find_keyword_type, if_neg hlen, hov, hbs, if_neg hcond]
          cases kw_static_match s.keyword_for_lang s.language_count s.in_preproc
              s.lang_flags s.lang_flags j <;>
            simp [hlen, hov, hbs, hprag]

/-- C5: resolving `__pragma` or `_Pragma` (not shadowed by an override,
found in the filtered catalogue) sets `cpd.in_preproc` to `CT_PREPROC`, and
this happens before the run-filtering step: the token returned by this very
call is already computed with the context forced to `CT_PREPROC`. -/
theorem find_keyword_type_pragma_priming (word : String) (len : Nat) (s : KWState)
    (j : Nat) (hlen : len ≠ 0)
    (hov : dkw_find s.dkwm (word.take len) = none)
    (hprag : word.take len = "__pragma" ∨ word.take len = "_Pragma")
    (hbs : kw_bsearch s.keyword_for_lang (word.take len) s.language_count = some j) :
    (find_keyword_type word len s).snd.in_preproc = CT_PREPROC ∧
    (find_keyword_type word len s).fst =
      (match kw_static_match s.keyword_for_lang s.language_count CT_PREPROC
              s.lang_flags s.lang_flags j with
       | some t => t.type
       | none => CT_WORD) := by
  have htag : (s.keyword_for_lang j).tag = word.take len := (kw_bsearch_sound hbs).2
  have hcond : (s.keyword_for_lang j).tag = "__pragma" ∨
      (s.keyword_for_lang j).tag = "_Pragma" := by rw [htag]; exact hprag
  simp only [find_keyword_type, if_neg hlen, hov, hbs, if_pos hcond]
  cases kw_static_match s.keyword_for_lang s.language_count CT_PREPROC
      s.lang_flags s.lang_flags j <;> simp

/-- C1: for a nonempty word that misses the Override Registry but whose
spelling occurs in the (sorted) Language-Filtered Catalogue, resolution
returns the kind of the first entry, in catalogue order within the
contiguous run of entries sharing that spelling, whose applicability
intersects the active language flags and whose preprocessor-only marker
agrees with the preprocessor context in effect at the filtering step
(`effective_ctx`: forced to `CT_PREPROC` for the two directive introducers,
the externally supplied context otherwise). -/
theorem find_keyword_type_first_of_run (word : String) (len : Nat) (s : KWState)
    (t : chunk_tag_t) (hlen : len ≠ 0)
    (hov : dkw_find s.dkwm (word.take len) = none)
    (hsort : tags_sorted (kw_view s.keyword_for_lang s.language_count) = true)
    (hfind : findFirst (claim_ok s.lang_flags (effective_ctx (word.take len) s))
        (runOf (word.take len) (kw_view s.keyword_for_lang s.language_count)) = some t) :
    (find_keyword_type word len s).fst = t.type := by
  have hmem := findFirst_some _ hfind
  have hmem2 := mem_runOf.mp hmem.1
  obtain ⟨i, hi, hie⟩ := kw_view_mem.mp hmem2.1
  have hikey : (s.keyword_for_lang i).tag = word.take len := by rw [hie]; exact hmem2.2
  obtain ⟨j, hbs⟩ := Option.isSome_iff_exists.mp (kw_bsearch_complete hsort hi hikey)
  obtain ⟨hj, htagj⟩ := kw_bsearch_sound hbs
  by_cases hprag : (s.keyword_for_lang j).tag = "__pragma" ∨
      (s.keyword_for_lang j).tag = "_Pragma"
  · have hctx : effective_ctx (word.take len) s = CT_PREPROC := by
      rw [effective_ctx, if_pos (by rw [← htagj]; exact hprag)]
    rw [hctx] at hfind
    have hrun := kw_static_match_run CT_PREPROC s.lang_flags hsort hj htagj
    simp only [find_keyword_type, if_neg hlen, hov, hbs, if_pos hprag]
    rw [hrun, hfind]
  · have hctx : effective_ctx (word.take len) s = s.in_preproc := by
      rw [effective_ctx, if_neg (by rw [← htagj]; exact hprag)]
    rw [hctx] at hfind
    have hrun := kw_static_match_run s.in_preproc s.lang_flags hsort hj htagj
    simp only [find_keyword_type, if_neg hlen, hov, hbs, if_neg hprag]
    rw [hrun, hfind]

/-- C8: for a nonempty word that misses the Override Registry, if binary
search finds no entry with that spelling, or no entry of the matching run
satisfies both the language-intersection and the preprocessor-context
condition, resolution falls back to the generic-identifier kind `CT_WORD` —
never an "unknown" result. -/
theorem find_keyword_type_fallback (word : String) (len : Nat) (s : KWState)
    (hlen : len ≠ 0)
    (hov : dkw_find s.dkwm (word.take len) = none)
    (hsort : tags_sorted (kw_view s.keyword_for_lang s.language_count) = true)
    (h : kw_bsearch s.keyword_for_lang (word.take len) s.language_count = none ∨
         ∀ e ∈ runOf (word.take len) (kw_view s.keyword_for_lang s.language_count),
           ¬ claim_ok s.lang_flags (effective_ctx (word.take len) s) e) :
    (find_keyword_type word len s).fst = CT_WORD := by
  cases hbs : kw_bsearch s.keyword_for_lang (word.take len) s.language_count with
  | none => simp [find_keyword_type, hlen, hov, hbs]
  | some j =>
    rcases h with hnone | hall
    · rw [hbs] at hnone
      exact absurd hnone (by simp)
    · obtain ⟨hj, htagj⟩ := kw_bsearch_sound hbs
      by_cases hprag : (s.keyword_for_lang j).tag = "__pragma" ∨
          (s.keyword_for_lang j).tag = "_Pragma"
      · have hctx : effective_ctx (word.take len) s = CT_PREPROC := by
          rw [effective_ctx, if_pos (by rw [← htagj]; exact hprag)]
        rw [hctx] at hall
        have hrun := kw_static_match_run CT_PREPROC s.lang_flags hsort hj htagj
        simp only [find_keyword_type, if_neg hlen, hov, hbs, if_pos hprag]
        rw [hrun, (findFirst_eq_none_iff ..).mpr hall]
      · have hctx : effective_ctx (word.take len) s = s.in_preproc := by
          rw [effective_ctx, if_neg (by rw [← htagj]; exact hprag)]
        rw [hctx] at hall
        have hrun := kw_static_match_run s.in_preproc s.lang_flags hsort hj htagj
        simp only [find_keyword_type, if_neg hlen, hov, hbs, if_neg hprag]
        rw [hrun, (findFirst_eq_none_iff ..).mpr hall]

theorem find_keyword_type_first_of_run_witness :
    (find_keyword_type "else" 4 { mk_lang_state LANG_C with in_preproc := CT_PP_IF }).fst
      = CT_PP_ELSE :=
  find_keyword_type_first_of_run "else" 4
    { mk_lang_state LANG_C with in_preproc := CT_PP_IF }
    (chunk_tag_t.mk "else" CT_PP_ELSE (LANG_ALL ||| FLAG_PP))
    (by decide) (by decide) (by decide) (by decide)

theorem find_keyword_type_pragma_priming_witness :
    (find_keyword_type "_Pragma" 7 (mk_lang_state LANG_C)).snd.in_preproc = CT_PREPROC ∧
    (find_keyword_type "define" 6
        ((find_keyword_type "_Pragma" 7 (mk_lang_state LANG_C)).snd)).fst = CT_PP_DEFINE ∧
    (find_keyword_type "define" 6 (mk_lang_state LANG_C)).fst = CT_WORD :=
  ⟨(find_keyword_type_pragma_priming "_Pragma" 7 (mk_lang_state LANG_C) 3
      (by decide) (by decide) (by decide) (by decide)).1,
   by decide, by decide⟩

theorem find_keyword_type_fallback_witness :
    (find_keyword_type "zzzzznotaword" 13 (mk_lang_state LANG_C)).fst = CT_WORD :=
  find_keyword_type_fallback "zzzzznotaword" 13 (mk_lang_state LANG_C)
    (by decide) (by decide) (by decide) (Or.inl (by decide))


theorem regWords_nil : regWords [] = [] := rfl

theorem regWords_cons_blank {line : String} (rest : List String)
    (h : lineClass line = some none) :
    regWords (line :: rest) = regWords rest := by
  simp [regWords, h]

theorem regWords_cons_word {line a : String} (rest : List String)
    (h : lineClass line = some (some a)) :
    regWords (line :: rest) = a :: regWords rest := by
  simp [regWords, h]

theorem load_kw_loop_ok (fn : String) : ∀ (lines : List String) (n : Nat)
    (m : List (String × E_Token)),
    (∀ l ∈ lines, (lineClass l).isSome) →
    load_kw_loop fn lines n m =
      (LoadResult.ok, (regWords lines).foldl (fun mm w => add_keyword w CT_TYPE mm) m) := by
  intro lines
  induction lines with
  | nil => intro n m _; rfl
  | cons line rest ih =>
    intro n m hall
    have hline := hall line (List.mem_cons_self ..)
    have hrest := fun l hl => hall l (List.mem_cons_of_mem _ hl)
    cases hsplit : SplitLine (stripComment line) with
    | nil =>
      have hlc : lineClass line = some none := by simp [lineClass, hsplit]
      simp only [load_kw_loop, hsplit]
      rw [ih (n + 1) m hrest, regWords_cons_blank rest hlc]
    | cons a args =>
      cases args with
      | nil =>
        by_cases hk : IsKw1 a.front = true
        · have hlc : lineClass line = some (some a) := by simp [lineClass, hsplit, hk]
          simp only [load_kw_loop, hsplit, List.isEmpty_nil, Bool.true_and, if_pos hk]
          rw [ih (n + 1) (add_keyword a CT_TYPE m) hrest,
            regWords_cons_word rest hlc, List.foldl_cons]
        · have hlc : lineClass line = none := by simp [lineClass, hsplit, hk]
          rw [hlc] at hline
          simp at hline
      | cons b args2 =>
        have hlc : lineClass line = none := by simp [lineClass, hsplit]
        rw [hlc] at hline
        simp at hline

theorem load_kw_loop_err (fn bad : String) (rest : List String)
    (hbad : lineClass bad = none) : ∀ (pre : List String) (n : Nat)
    (m : List (String × E_Token)),
    (∀ l ∈ pre, (lineClass l).isSome) →
    ∃ a, load_kw_loop fn (pre ++ bad :: rest) n m =
      (LoadResult.sw_error fn (n + pre.length + 1) a,
       (regWords pre).foldl (fun mm w => add_keyword w CT_TYPE mm) m) := by
  intro pre
  induction pre with
  | nil =>
    intro n m _
    cases hsplit : SplitLine (stripComment bad) with
    | nil =>
      have : lineClass bad = some none := by simp [lineClass, hsplit]
      rw [this] at hbad
      exact absurd hbad (by simp)
    | cons a args =>
      cases args with
      | nil =>
        by_cases hk : IsKw1 a.front = true
        · have : lineClass bad = some (some a) := by simp [lineClass, hsplit, hk]
          rw [this] at hbad
          exact absurd hbad (by simp)
        · refine ⟨a, ?_⟩
          simp only [List.nil_append, load_kw_loop, hsplit, List.isEmpty_nil,
            Bool.true_and, if_neg hk]
          rfl
      | cons b args2 =>
        refine ⟨a, ?_⟩
        simp only [List.nil_append, load_kw_loop, hsplit]
        rfl
  | cons line pre' ih =>
    intro n m hall
    have hline := hall line (List.mem_cons_self ..)
    have hrest := fun l hl => hall l (List.mem_cons_of_mem _ hl)
    have harith : n + 1 + pre'.length + 1 = n + (line :: pre').length + 1 := by
      simp
      omega
    cases hsplit : SplitLine (stripComment line) with
    | nil =>
      have hlc : lineClass line = some none := by simp [lineClass, hsplit]
      obtain ⟨a, ha⟩ := ih (n + 1) m hrest
      refine ⟨a, ?_⟩
      rw [List.cons_append]
      simp only [load_kw_loop, hsplit]
      rw [ha, harith, regWords_cons_blank pre' hlc]
    | cons a args =>
      cases args with
      | nil =>
        by_cases hk : IsKw1 a.front = true
        · have hlc : lineClass line = some (some a) := by simp [lineClass, hsplit, hk]
          obtain ⟨c, hc⟩ := ih (n + 1) (add_keyword a CT_TYPE m) hrest
          refine ⟨c, ?_⟩
          rw [List.cons_append]
          simp only [load_kw_loop, hsplit, List.isEmpty_nil, Bool.true_and, if_pos hk]
          rw [hc, harith, regWords_cons_word pre' hlc, List.foldl_cons]
        · have hlc : lineClass line = none := by simp [lineClass, hsplit, hk]
          rw [hlc] at hline
          simp at hline
      | cons b args2 =>
        have hlc : lineClass line = none := by simp [lineClass, hsplit]
        rw [hlc] at hline
        simp at hline

/-- C6: `load_keyword_file` strips everything from the first `#` of each
line, skips lines that are then empty, registers every remaining single-word
identifier-start line via `add_keyword .. CT_TYPE`; the first other
non-empty line stops the load with the software-error outcome naming the
file and the 1-based line number, lines registered before it staying
registered; an unopenable source yields the distinguished I/O-error outcome;
a fully well-formed source yields the success outcome. -/
theorem load_keyword_file_spec :
    (∀ (fn : String) (m : List (String × E_Token)),
      load_keyword_file fn none m = (LoadResult.io_error, m)) ∧
    (∀ (fn : String) (m : List (String × E_Token)) (lines : List String),
      (∀ l ∈ lines, (lineClass l).isSome) →
      load_keyword_file fn (some lines) m =
        (LoadResult.ok,
         (regWords lines).foldl (fun mm w => add_keyword w CT_TYPE mm) m)) ∧
    (∀ (fn : String) (m : List (String × E_Token)) (pre : List String) (bad : String)
        (rest : List String),
      (∀ l ∈ pre, (lineClass l).isSome) → lineClass bad = none →
      ∃ a, load_keyword_file fn (some (pre ++ bad :: rest)) m =
        (LoadResult.sw_error fn (pre.length + 1) a,
         (regWords pre).foldl (fun mm w => add_keyword w CT_TYPE mm) m)) := by
  refine ⟨fun fn m => rfl, fun fn m lines h => load_kw_loop_ok fn lines 0 m h, ?_⟩
  intro fn m pre bad rest hpre hbad
  obtain ⟨a, ha⟩ := load_kw_loop_err fn bad rest hbad pre 0 m hpre
  refine ⟨a, ?_⟩
  rw [show pre.length + 1 = 0 + pre.length + 1 by omega]
  exact ha

theorem load_keyword_file_spec_witness :
    load_keyword_file "kw.txt" (some ["foo", "# comment", "bar # trailing"]) [] =
      (LoadResult.ok, [("foo", CT_TYPE), ("bar", CT_TYPE)]) ∧
    (∃ a, load_keyword_file "kw.txt" (some (["foo"] ++ "123abc" :: ["bar"])) [] =
      (LoadResult.sw_error "kw.txt" 2 a, [("foo", CT_TYPE)])) := by
  constructor
  · exact load_keyword_file_spec.2.1 "kw.txt" [] _ (by decide)
  · obtain ⟨a, ha⟩ :=
      load_keyword_file_spec.2.2 "kw.txt" [] ["foo"] "123abc" ["bar"] (by decide) (by decide)
    exact ⟨a, ha⟩
